import Mathlib

/-!
Verification development for the toy C-like static-analysis pipeline in
`src/services/CompilerService.ts` (class `CompilerService`).

The TypeScript code is shallowly embedded: each private static method becomes a
Lean function of the same name, JS strings become `String`/`List Char`, JS
arrays become `List`, mutable traversal state is threaded explicitly, and the
index-based `while` loops become fueled recursions over the remaining list
(fuel = list length; every loop iteration of the source consumes at least one
element, so the fuel never runs out on any input).

The JS regexes of the lexer are modelled exactly, including a subtlety of the
source: the code builds each regex as `new RegExp('^' + pattern.source)`, and
for the COMMENT and OPERATOR patterns the source is an alternation, so the `^`
anchor applies only to the first alternative.  The remaining alternatives
(`/*...*/`, `&&`, `||`, `++`, `--`) can therefore match anywhere in the
remaining input; `exec` returns the leftmost such match, the code consumes
`match.length` characters from the front of the remaining input, and advances
line/column by scanning the characters of the match (not of the consumed
prefix).
-/

namespace Compiler

/-- Token produced by `performLexicalAnalysis` (interface `Token`). -/
structure Token where
  ty : String
  value : String
  line : Nat
  column : Nat
  deriving Repr, DecidableEq

/-! ### Character classes of the lexer's regexes -/

/-- JS `\w` (word character): `[a-zA-Z0-9_]`. -/
def isWordChar (c : Char) : Bool :=
  (('a' ≤ c && c ≤ 'z') || ('A' ≤ c && c ≤ 'Z') || ('0' ≤ c && c ≤ '9') || c = '_')

/-- Source `[a-zA-Z_]`, the first character of an IDENTIFIER. -/
def isIdentStart (c : Char) : Bool :=
  (('a' ≤ c && c ≤ 'z') || ('A' ≤ c && c ≤ 'Z') || c = '_')

/-- Source `[0-9]`. -/
def isDigitChar (c : Char) : Bool :=
  ('0' ≤ c && c ≤ '9')

/-- The OPERATOR character class `[+\-*\/%=<>!&|^]`. -/
def isOpChar (c : Char) : Bool :=
  c = '+' || c = '-' || c = '*' || c = '/' || c = '%' || c = '=' ||
  c = '<' || c = '>' || c = '!' || c = '&' || c = '|' || c = '^'

/-- The PUNCTUATION character class `[;,(){}\[\].]`. -/
def isPunctChar (c : Char) : Bool :=
  c = ';' || c = ',' || c = '(' || c = ')' || c = '\x7b' || c = '\x7d' ||
  c = '[' || c = ']' || c = '.'

/-- JS `\\s`: ASCII whitespace plus the Unicode space characters JS includes
(U+00A0, U+1680, U+2000-U+200A, U+2028, U+2029, U+202F, U+205F, U+3000,
U+FEFF), written by code point. -/
def isJsSpace (c : Char) : Bool :=
  c = ' ' || c = '\t' || c = '\n' || c = '\r' || c = '\x0b' || c = '\x0c' ||
  c.toNat = 0xa0 || c.toNat = 0x1680 ||
  (0x2000 <= c.toNat && c.toNat <= 0x200a) ||
  c.toNat = 0x2028 || c.toNat = 0x2029 || c.toNat = 0x202f ||
  c.toNat = 0x205f || c.toNat = 0x3000 || c.toNat = 0xfeff

/-! ### Per-pattern `exec` on the remaining input

Each function returns `result[0]` of `new RegExp('^' + source).exec(remaining)`
as a `List Char`, or `none` when `exec` returns null. -/

/-- Shortest prefix of `l` that ends with the two characters `*/`
(the lazy `[\s\S]*?\*\/` tail of a block comment), including them. -/
def scanToClose (l : List Char) : Option (List Char) :=
  match l with
  | [] => none
  | ['*'] => none
  | '*' :: '/' :: _ => some ['*', '/']
  | c :: rest => (scanToClose rest).map (fun t => c :: t)

/-- A block comment `/*...*/` starting exactly at the head of `l`. -/
def blockCommentAt (l : List Char) : Option (List Char) :=
  match l with
  | '/' :: '*' :: rest => (scanToClose rest).map (fun t => '/' :: '*' :: t)
  | _ => none

/-- Leftmost block comment anywhere in `l` (the second COMMENT alternative is
not anchored by the `^` the code prepends). -/
def blockCommentSearch (l : List Char) : Option (List Char) :=
  match l with
  | [] => none
  | c :: rest =>
    match blockCommentAt (c :: rest) with
    | some m => some m
    | none => blockCommentSearch rest

/-- COMMENT pattern `^\/\/[^\n]*|\/\*[\s\S]*?\*\/`. -/
def commentExec (s : List Char) : Option (List Char) :=
  match s with
  | '/' :: '/' :: rest => some ('/' :: '/' :: rest.takeWhile (fun c => c ≠ '\n'))
  | _ => blockCommentSearch s

/-- The keyword alternation, in source order. -/
def keywordList : List (List Char) :=
  ["int".data, "char".data, "float".data, "double".data, "void".data,
   "if".data, "else".data, "while".data, "for".data, "return".data,
   "printf".data]

/-- Does `s` start with prefix `p`? -/
def startsWithList (p s : List Char) : Bool :=
  match p, s with
  | [], _ => true
  | _ :: _, [] => false
  | a :: p', b :: s' => a = b && startsWithList p' s'

/-- KEYWORD pattern `^\b(int|...|printf)\b`: a keyword at position 0 followed
by a non-word character (or end of input). -/
def keywordExec (s : List Char) : Option (List Char) :=
  keywordList.find? (fun k =>
    startsWithList k s &&
      (match (s.drop k.length).head? with
       | none => true
       | some c => !isWordChar c))

/-- IDENTIFIER pattern `^[a-zA-Z_][a-zA-Z0-9_]*`. -/
def identExec (s : List Char) : Option (List Char) :=
  match s with
  | c :: rest => if isIdentStart c then some (c :: rest.takeWhile isWordChar) else none
  | [] => none

/-- STRING pattern `^"[^"]*"`. -/
def stringExec (s : List Char) : Option (List Char) :=
  match s with
  | '"' :: rest =>
    match (rest.drop (rest.takeWhile (fun c => c ≠ '"')).length).head? with
    | some c2 =>
      if c2 = '"' then some ('"' :: rest.takeWhile (fun c => c ≠ '"') ++ ['"']) else none
    | none => none
  | _ => none

/-- Is there a word boundary between the match so far and the rest `l`
(i.e. `l` is empty or starts with a non-word character)?  This is the
trailing `\b` of the NUMBER pattern (the char before it is always a digit). -/
def boundaryAfter (l : List Char) : Bool :=
  match l.head? with
  | none => true
  | some c => !isWordChar c

/-- The optional exponent `(e[+-]?\d+)?` starting at `l`: returns the matched
characters (greedy sign and digits; the digit run must be nonempty). -/
def expPartAt (l : List Char) : Option (List Char) :=
  match l with
  | 'e' :: rest =>
    match rest with
    | c :: rest' =>
      if c = '+' || c = '-' then
        let ds := rest'.takeWhile isDigitChar
        if ds.isEmpty then none else some ('e' :: c :: ds)
      else
        let ds := rest.takeWhile isDigitChar
        if ds.isEmpty then none else some ('e' :: ds)
    | [] => none
  | _ => none

/-- NUMBER pattern `^\b\d+(\.\d+)?(e[+-]?\d+)?\b` with JS backtracking: the
digit runs are all-or-nothing (shortening a `\d+` leaves a digit next, which
kills both the following group and the trailing `\b`), so the engine tries the
optional groups present-first and checks the trailing boundary for each
candidate. -/
def numberExec (s : List Char) : Option (List Char) :=
  match s with
  | c :: _ =>
    if isDigitChar c then
      let d := s.takeWhile isDigitChar
      let afterD := s.drop d.length
      let fracCands : List (List Char) :=
        match afterD with
        | '.' :: r =>
          let fds := r.takeWhile isDigitChar
          if fds.isEmpty then []
          else
            let f := '.' :: fds
            let afterF := r.drop fds.length
            (match expPartAt afterF with
             | some e => [d ++ f ++ e]
             | none => []) ++ [d ++ f]
        | _ => []
      let plainCands : List (List Char) :=
        (match expPartAt afterD with
         | some e => [d ++ e]
         | none => []) ++ [d]
      (fracCands ++ plainCands).find? (fun cand => boundaryAfter (s.drop cand.length))
    else none
  | [] => none

/-- Leftmost doubled operator (`&&`, `||`, `++`, `--`) anywhere in `l`.  These
alternatives of the OPERATOR pattern are not anchored; they can only win when
the head of the remaining input is not an operator character (their own first
characters are operator characters, so position 0 is covered by the first
alternative). -/
def pairScan (l : List Char) : Option (List Char) :=
  match l with
  | a :: b :: rest =>
    if a = b && (a = '&' || a = '|' || a = '+' || a = '-') then some [a, a]
    else pairScan (b :: rest)
  | _ => none

/-- OPERATOR pattern `^[+\-*\/%=<>!&|^]=?|&&|\|\||\+\+|--`.  At position 0 the
first (anchored) alternative is tried first, so a leading operator character
always matches via `[...]=?` (which is why `&&` at the start of the input
lexes as two `&` tokens). -/
def operatorExec (s : List Char) : Option (List Char) :=
  match s with
  | c :: rest =>
    if isOpChar c then
      match rest.head? with
      | some '=' => some [c, '=']
      | _ => some [c]
    else pairScan (c :: rest)
  | [] => none

/-- PUNCTUATION pattern `^[;,(){}\[\].]`. -/
def punctuationExec (s : List Char) : Option (List Char) :=
  match s with
  | c :: _ => if isPunctChar c then some [c] else none
  | [] => none

/-- WHITESPACE pattern `^\s+`. -/
def whitespaceExec (s : List Char) : Option (List Char) :=
  match s with
  | c :: _ =>
    if isJsSpace c then some (s.takeWhile isJsSpace) else none
  | [] => none

/-- One step of the pattern-selection loop: keep the incumbent unless the new
result is strictly longer (`result[0].length > match.length`; ties keep the
earlier pattern). -/
def pickLonger (acc : Option (String × List Char)) (ty : String)
    (r : Option (List Char)) : Option (String × List Char) :=
  match r with
  | none => acc
  | some m =>
    match acc with
    | none => some (ty, m)
    | some (t0, m0) => if m0.length < m.length then some (ty, m) else some (t0, m0)

/-- The `for (const {type, pattern} of patterns)` selection over the eight
patterns, in declaration order. -/
def bestMatch (s : List Char) : Option (String × List Char) :=
  pickLonger (pickLonger (pickLonger (pickLonger (pickLonger (pickLonger
    (pickLonger (pickLonger none "COMMENT" (commentExec s))
      "KEYWORD" (keywordExec s))
      "IDENTIFIER" (identExec s))
      "STRING" (stringExec s))
      "NUMBER" (numberExec s))
      "OPERATOR" (operatorExec s))
      "PUNCTUATION" (punctuationExec s))
      "WHITESPACE" (whitespaceExec s)

/-- Line/column update over the characters of the match: a newline increments
the line and resets the column to 1, any other character increments the
column. -/
def advancePos (line col : Nat) (m : List Char) : Nat × Nat :=
  m.foldl (fun (p : Nat × Nat) c => if c = '\n' then (p.1 + 1, 1) else (p.1, p.2 + 1))
    (line, col)

/-- The lexer's `while (remaining.length > 0)` loop.  Returns the emitted
tokens and the remaining input when the fuel runs out (with fuel
`remaining.length` it never does, since every step consumes at least one
character). -/
def lexGo : (fuel : Nat) → (line col : Nat) → (remaining : List Char) →
    List Token × List Char
  | 0, _, _, remaining => ([], remaining)
  | _ + 1, _, _, [] => ([], [])
  | fuel + 1, line, col, c :: rest =>
    match bestMatch (c :: rest) with
    | some (ty, m) =>
      let p := advancePos line col m
      let r := lexGo fuel p.1 p.2 ((c :: rest).drop m.length)
      (if ty ≠ "WHITESPACE" && ty ≠ "COMMENT" then
         ⟨ty, String.mk m, line, col⟩ :: r.1
       else r.1, r.2)
    | none =>
      let r := lexGo fuel line (col + 1) rest
      (⟨"ERROR", String.mk [c], line, col⟩ :: r.1, r.2)

/-- Source `performLexicalAnalysis` (lines 416-485 of the source). -/
def performLexicalAnalysis (code : String) : List Token :=
  (lexGo code.data.length 1 1 code.data).1

/-! ### Parse tree

`ParseTreeNode` as the program actually populates it: the interface declares an
optional `parent` back-reference, but no code in the repository ever assigns
it, so it is omitted from the embedding (every node's `parent` is `undefined`
at run time).  The parser also never assigns `line`/`column`; the fields are
kept because `findSyntaxErrors` reads them with a `|| 0` default. -/
inductive ParseTreeNode where
  | mk (id : String) (ty : String) (value : Option String)
       (line column : Option Nat) (children : List ParseTreeNode)
  deriving Repr

def ParseTreeNode.id : ParseTreeNode → String
  | .mk i _ _ _ _ _ => i

def ParseTreeNode.ty : ParseTreeNode → String
  | .mk _ t _ _ _ _ => t

def ParseTreeNode.value : ParseTreeNode → Option String
  | .mk _ _ v _ _ _ => v

def ParseTreeNode.line : ParseTreeNode → Option Nat
  | .mk _ _ _ l _ _ => l

def ParseTreeNode.column : ParseTreeNode → Option Nat
  | .mk _ _ _ _ c _ => c

def ParseTreeNode.children : ParseTreeNode → List ParseTreeNode
  | .mk _ _ _ _ _ cs => cs

/-- The id strings produced by `getNextId`. -/
def nodeId (n : Nat) : String := "node_" ++ toString n

/-- A leaf node copied from a token (`{id, type: tokens[i].type, value:
tokens[i].value, children: []}`). -/
def leafNode (cnt : Nat) (t : Token) : ParseTreeNode :=
  .mk (nodeId cnt) t.ty (some t.value) none none []

/-- Leaf nodes for a run of tokens, threading the id counter. -/
def makeLeaves (cnt : Nat) (ts : List Token) : List ParseTreeNode × Nat :=
  match ts with
  | [] => ([], cnt)
  | t :: r =>
    let p := makeLeaves (cnt + 1) r
    (leafNode cnt t :: p.1, p.2)

/-- Source `parseFunctionBody` (lines 603-713): the `while (i < len && braceCount >
0)` loop, index-relativized to the remaining token list.  Returns the nodes
pushed into `parentNode.children`, the tokens past the point where the loop
stopped, and the id counter.  Note two quirks reproduced from the source: the
`braceCount++` before the body recursion persists in the outer loop after the
recursion returns, and the body recursion therefore scans until the count it
was given reaches zero.  Fuel = list length is always sufficient (each
iteration consumes at least the token it inspects). -/
def parseFunctionBody : (fuel : Nat) → (ts : List Token) → (braceCount cnt : Nat) →
    List ParseTreeNode × List Token × Nat
  | 0, ts, _, cnt => ([], ts, cnt)
  | _ + 1, [], _, cnt => ([], [], cnt)
  | _ + 1, t :: rest, 0, cnt => ([], t :: rest, cnt)
  | fuel + 1, t :: rest, bc + 1, cnt =>
      let braceCount := bc + 1
      if t.ty = "KEYWORD" && t.value = "for" then
        let forId := cnt
        -- for-loop header: `if (i < tokens.length && tokens[i].value === '(')`
        let header : List ParseTreeNode × List Token × Nat :=
          match rest.head? with
          | some tp =>
            if tp.value = "(" then
              let s1 := (rest.drop 1).span (fun tok => tok.value ≠ ";")
              let li := makeLeaves (cnt + 2) s1.1
              let initNode := ParseTreeNode.mk (nodeId (cnt + 1)) "FOR_INIT" none none none li.1
              let s2 := (s1.2.drop 1).span (fun tok => tok.value ≠ ";")
              let lc := makeLeaves (li.2 + 1) s2.1
              let condNode := ParseTreeNode.mk (nodeId li.2) "FOR_CONDITION" none none none lc.1
              let s3 := (s2.2.drop 1).span (fun tok => tok.value ≠ ")")
              let ln := makeLeaves (lc.2 + 1) s3.1
              let incrNode := ParseTreeNode.mk (nodeId lc.2) "FOR_INCREMENT" none none none ln.1
              ([initNode, condNode, incrNode], s3.2.drop 1, ln.2)
            else ([], rest, cnt + 1)
          | none => ([], rest, cnt + 1)
        -- for-loop body: `if (i < tokens.length && tokens[i].value === '\x7b')`
        let body : List ParseTreeNode × List Token × Nat × Nat :=
          match header.2.1.head? with
          | some tb =>
            if tb.value = "\x7b" then
              let pr := parseFunctionBody fuel (header.2.1.drop 1) (braceCount + 1) (header.2.2 + 1)
              ([ParseTreeNode.mk (nodeId header.2.2) "FOR_BODY" none none none pr.1],
               pr.2.1, pr.2.2, braceCount + 1)
            else ([], header.2.1, header.2.2, braceCount)
          | none => ([], header.2.1, header.2.2, braceCount)
        let forNode := ParseTreeNode.mk (nodeId forId) "FOR_STATEMENT" none none none
          (header.1 ++ body.1)
        let cont := parseFunctionBody fuel body.2.1 body.2.2.2 body.2.2.1
        (forNode :: cont.1, cont.2.1, cont.2.2)
      else
        let bc' := if t.value = "\x7b" then braceCount + 1
                   else if t.value = "\x7d" then braceCount - 1 else braceCount
        parseFunctionBody fuel rest bc' cnt

/-- The top-level `while (i < tokens.length)` scan of `performSyntaxAnalysis`
(lines 487-527): returns the children pushed onto the PROGRAM root and the id
counter. -/
def syntaxLoop : (fuel : Nat) → (ts : List Token) → (cnt : Nat) →
    List ParseTreeNode × Nat
  | 0, _, cnt => ([], cnt)
  | _ + 1, [], cnt => ([], cnt)
  | fuel + 1, t :: rest, cnt =>
      if t.ty = "KEYWORD" then
        let s := (t :: rest).span (fun tok => tok.value ≠ ";" && tok.value ≠ "\x7b")
        let lv := makeLeaves (cnt + 1) s.1
        let blk : List ParseTreeNode × List Token × Nat :=
          match s.2.head? with
          | some tb =>
            if tb.value = "\x7b" then
              let pr := parseFunctionBody (s.2.drop 1).length (s.2.drop 1) 1 lv.2
              (pr.1, pr.2.1, pr.2.2)
            else ([], s.2, lv.2)
          | none => ([], s.2, lv.2)
        let node := ParseTreeNode.mk (nodeId cnt) "STATEMENT" none none none (lv.1 ++ blk.1)
        let r := syntaxLoop fuel (blk.2.1.drop 1) blk.2.2
        (node :: r.1, r.2)
      else
        syntaxLoop fuel rest cnt

/-- Source `performSyntaxAnalysis` (lines 487-527): the PROGRAM root gets `node_0`,
the counter continues from 1. -/
def performSyntaxAnalysis (tokens : List Token) : ParseTreeNode :=
  .mk (nodeId 0) "PROGRAM" none none none (syntaxLoop tokens.length tokens 1).1

/-! ### Diagnostics -/

/-- Source `CompilerError` (interface in `types/compiler`). -/
structure CompilerError where
  message : String
  line : Nat
  column : Nat
  severity : String
  context : Option String := none
  suggestions : List String := []
  deriving Repr, DecidableEq

/-- Source `matchingBrackets` (lines 124-130). -/
def matchingBrackets (opening closing : String) : Bool :=
  (opening = "\x7b" && closing = "\x7d") ||
  (opening = "(" && closing = ")") ||
  (opening = "[" && closing = "]")

/-- Source `getErrorContext` (lines 132-141): up to five tokens on either side of the
error token, values joined by single spaces. -/
def getErrorContext (tokens : List Token) (errorIndex : Nat) : String :=
  let start := errorIndex - 5
  let stop := min tokens.length (errorIndex + 5)
  String.intercalate " " (((tokens.take stop).drop start).map (·.value))

/-- Source `findLexicalErrors` (lines 56-77). -/
def findLexicalErrors (tokens : List Token) : List CompilerError :=
  (tokens.enum.filter (fun p => p.2.ty = "ERROR")).map (fun p =>
    { message := "Invalid token: " ++ p.2.value
      line := p.2.line
      column := p.2.column
      severity := "error"
      context := some (getErrorContext tokens p.1)
      suggestions := ["Check for invalid characters",
                      "Ensure proper syntax is used",
                      "Verify string literals are properly closed"] })

/-- An entry of the `bracketStack` in `findSyntaxErrors`. -/
structure BracketRec where
  char : String
  line : Nat
  column : Nat
  deriving Repr, DecidableEq

/-- The body of `checkNode` at one node: bracket pushes/pops and the
mismatched-bracket errors (lines 83-103).  The stack's head is its top. -/
def checkNodeStep (ty : String) (v : Option String) (line column : Option Nat)
    (st : List BracketRec × List CompilerError) :
    List BracketRec × List CompilerError :=
  if ty = "PUNCTUATION" then
    let v0 := v.getD ""
    if v0 = "\x7b" || v0 = "(" || v0 = "[" then
      (⟨v0, line.getD 0, column.getD 0⟩ :: st.1, st.2)
    else if v0 = "\x7d" || v0 = ")" || v0 = "]" then
      match st.1 with
      | last :: restStack =>
        if matchingBrackets last.char v0 then (restStack, st.2)
        else (restStack, st.2 ++
          [{ message := "Mismatched brackets: expected closing " ++ last.char
             line := line.getD 0, column := column.getD 0, severity := "error"
             suggestions := ["Ensure all brackets are properly matched"] }])
      | [] => ([], st.2 ++
          [{ message := "Mismatched brackets: expected closing bracket"
             line := line.getD 0, column := column.getD 0, severity := "error"
             suggestions := ["Ensure all brackets are properly matched"] }])
    else st
  else st

mutual

/-- The recursive `checkNode` traversal of `findSyntaxErrors`. -/
def checkNode : ParseTreeNode → (List BracketRec × List CompilerError) →
    List BracketRec × List CompilerError
  | .mk _ ty v line column children, st =>
    checkNodes children (checkNodeStep ty v line column st)

def checkNodes : List ParseTreeNode → (List BracketRec × List CompilerError) →
    List BracketRec × List CompilerError
  | [], st => st
  | c :: cs, st => checkNodes cs (checkNode c st)

end

/-- Source `findSyntaxErrors` (lines 79-122): traversal errors first, then one
"Unclosed bracket" error per opener left on the stack, bottom of the stack
first (JS `forEach` over the array). -/
def findSyntaxErrors (parseTree : ParseTreeNode) : List CompilerError :=
  let r := checkNode parseTree ([], [])
  r.2 ++ r.1.reverse.map (fun b =>
    { message := "Unclosed bracket: " ++ b.char
      line := b.line, column := b.column, severity := "error"
      suggestions := ["Add the corresponding closing bracket"] })

/-! ### Semantic analysis (`performSemanticAnalysis`, lines 529-571)

The source mutates a captured `currentScope` variable and never restores it
when a recursive call returns.  Scopes are JS objects linked by references; the
embedding keeps them in one list in push order (object identity = list index)
and threads `{scopes, current}` explicitly.  Each child is analyzed with the
value `currentScope` has at the moment that child's call starts, exactly as
`node.children.forEach(child => analyzeNode(child, currentScope))` does. -/

/-- The value stored in a scope's `variables` map. -/
structure VarInfo where
  vty : String
  initialized : Bool
  deriving Repr, DecidableEq

/-- Source `VariableScope`, with object references replaced by indices into the
state's scope list. -/
structure VariableScope where
  id : String
  -- the source names this field `variables` (a reserved word in Lean)
  vars : List (String × VarInfo)
  parent : Option Nat
  children : List Nat
  deriving Repr, DecidableEq

/-- The mutable state of `performSemanticAnalysis`: the `scopes` array and the
captured `currentScope` variable (as an index). -/
structure SemState where
  scopes : List VariableScope
  current : Nat
  deriving Repr, DecidableEq

/-- Update the element at one index, leaving the rest unchanged. -/
def updateNth (l : List α) (n : Nat) (f : α → α) : List α :=
  match l, n with
  | [], _ => []
  | a :: r, 0 => f a :: r
  | a :: r, n + 1 => a :: updateNth r n f

/-- JS `Map.set`: replace the value in place if the key exists, else append. -/
def mapSet (m : List (String × VarInfo)) (k : String) (v : VarInfo) :
    List (String × VarInfo) :=
  match m with
  | [] => [(k, v)]
  | (k', v') :: r => if k' = k then (k, v) :: r else (k', v') :: mapSet r k v

/-- The declaration-recording step of `analyzeNode` (lines 541-551): a
STATEMENT whose first child is a KEYWORD among the declarable types and whose
second child is an IDENTIFIER records `{type, initialized: children.length >
3}` in the scope passed to the call. -/
def declStep (n : ParseTreeNode) (scopeIdx : Nat) (st : SemState) : SemState :=
  match n.children.head? with
  | some c0 =>
    if n.ty = "STATEMENT" && c0.ty = "KEYWORD" then
      match c0.value with
      | some keyword =>
        if keyword = "int" || keyword = "char" || keyword = "float" || keyword = "double" then
          match n.children[1]? with
          | some ident =>
            if ident.ty = "IDENTIFIER" then
              let info : VarInfo := { vty := keyword, initialized := n.children.length > 3 }
              { st with scopes := updateNth st.scopes scopeIdx (fun sc =>
                  { sc with vars := mapSet sc.vars (ident.value.getD "") info }) }
            else st
          | none => st
        else st
      | none => st
    else st
  | none => st

/-- The scope-pushing step of `analyzeNode` (lines 554-564): FOR_STATEMENT and
IF_STATEMENT push a child scope and make it `currentScope`; nothing ever pops
it. -/
def pushStep (n : ParseTreeNode) (scopeIdx : Nat) (st : SemState) : SemState :=
  if n.ty = "FOR_STATEMENT" || n.ty = "IF_STATEMENT" then
    let parentId := ((st.scopes.get? scopeIdx).map (·.id)).getD ""
    let newIdx := st.scopes.length
    let newScope : VariableScope :=
      { id := parentId ++ "_" ++ n.id, vars := [], parent := some scopeIdx, children := [] }
    { scopes := (updateNth st.scopes scopeIdx (fun sc =>
        { sc with children := sc.children ++ [newIdx] })) ++ [newScope]
      current := newIdx }
  else st

mutual

/-- The recursive `analyzeNode` of `performSemanticAnalysis`. -/
def analyzeNode : ParseTreeNode → Nat → SemState → SemState
  | n@(.mk _ _ _ _ _ children), scopeIdx, st =>
    analyzeChildren children (pushStep n scopeIdx (declStep n scopeIdx st))

/-- Source `node.children.forEach(child => analyzeNode(child, currentScope))`. -/
def analyzeChildren : List ParseTreeNode → SemState → SemState
  | [], st => st
  | c :: cs, st => analyzeChildren cs (analyzeNode c st.current st)

end

/-- The initial global scope. -/
def globalScope : VariableScope :=
  { id := "global", vars := [], parent := none, children := [] }

/-- Source `performSemanticAnalysis` (lines 529-571).  The `errors` array is created
and returned but nothing in the source ever pushes to it. -/
def performSemanticAnalysis (parseTree : ParseTreeNode) :
    List VariableScope × List CompilerError :=
  ((analyzeNode parseTree 0 ⟨[globalScope], 0⟩).scopes, [])

/-! ### Control flow (`analyzeControlFlow`, lines 573-601) -/

/-- One entry of a flow node's `conditions` array. -/
structure FlowCond where
  cty : String
  expression : String
  deriving Repr, DecidableEq

/-- Source `ControlFlowNode`: `next` mirrors the parse node's children. -/
inductive ControlFlowNode where
  | mk (id ty : String) (next : List ControlFlowNode) (conditions : List FlowCond)
  deriving Repr

def ControlFlowNode.id : ControlFlowNode → String
  | .mk i _ _ _ => i

def ControlFlowNode.ty : ControlFlowNode → String
  | .mk _ t _ _ => t

def ControlFlowNode.next : ControlFlowNode → List ControlFlowNode
  | .mk _ _ n _ => n

def ControlFlowNode.conditions : ControlFlowNode → List FlowCond
  | .mk _ _ _ c => c

/-- JS `String.prototype.includes` on character lists. -/
def containsSubList (l sub : List Char) : Bool :=
  if startsWithList sub l then true
  else
    match l with
    | [] => false
    | _ :: t => containsSubList t sub

/-- JS `String.prototype.includes`. -/
def strIncludes (s sub : String) : Bool :=
  containsSubList s.data sub.data

/-- Source `children.map(c => c.value).join(' ')`: JS stringifies `undefined` as the
empty string inside `join`. -/
def joinValues (cs : List ParseTreeNode) : String :=
  String.intercalate " " (cs.map (fun c => c.value.getD ""))

mutual

/-- Source `createFlowNode`: conditions are pushed only for FOR_STATEMENT and
WHILE_STATEMENT (there is no IF_STATEMENT branch in the source), using the
first direct child whose kind contains the substring `CONDITION`. -/
def createFlowNode : ParseTreeNode → ControlFlowNode
  | .mk i ty _ _ _ children =>
    let conds :=
      if ty = "FOR_STATEMENT" || ty = "WHILE_STATEMENT" then
        match children.find? (fun c => strIncludes c.ty "CONDITION") with
        | some condition => [⟨"LOOP", joinValues condition.children⟩]
        | none => []
      else []
    .mk i ty (createFlowNodes children) conds

def createFlowNodes : List ParseTreeNode → List ControlFlowNode
  | [] => []
  | c :: cs => createFlowNode c :: createFlowNodes cs

end

/-- Source `analyzeControlFlow` (lines 573-601). -/
def analyzeControlFlow (parseTree : ParseTreeNode) : ControlFlowNode :=
  createFlowNode parseTree

/-! ### Complexity estimation (`estimateComplexity` and helpers, lines
143-414) -/

/-- An element of the `loops` array built by `findLoops`. -/
structure LoopInfo where
  lty : String
  nested : Bool
  condition : String
  deriving Repr, DecidableEq

/-- An element of the `conditionals` array built by `findConditionals`. -/
structure CondInfo where
  condition : String
  hasElse : Bool
  deriving Repr, DecidableEq

/-- An element of the `variables` array built by `findVariables`.  `vty` is
`n.children[0].value`, which for a valueless first child is `undefined` in the
source (such a node never occurs in parser output; every KEYWORD child is a
token leaf carrying a value). -/
structure VarDecl where
  vty : Option String
  name : String
  deriving Repr, DecidableEq

/-- An optimization suggestion `{title, description}`. -/
structure Suggestion where
  title : String
  description : String
  deriving Repr, DecidableEq

/-- Source `ComplexityInfo`: `time.bigO`/`time.factors`/`space.bigO`/`space.details`
flattened into one record. -/
structure ComplexityInfo where
  timeBigO : Nat
  timeFactors : List String
  spaceBigO : Nat
  spaceDetails : List String
  suggestions : List Suggestion
  deriving Repr, DecidableEq

/-- Source `isNestedLoop` (lines 340-353) walks the `parent` chain of the node.  No
code in the repository ever assigns a node's `parent`, so `current.parent` is
`undefined` at the first check, the `while` loop exits immediately, and the
function returns `false` for every node the program ever builds. -/
def isNestedLoop (_ : ParseTreeNode) : Bool := false

/-- Source `extractLoopCondition` (lines 355-363). -/
def extractLoopCondition (n : ParseTreeNode) : String :=
  match n.children.find? (fun c => c.ty = "FOR_CONDITION" || c.ty = "WHILE_CONDITION") with
  | some conditionNode => joinValues conditionNode.children
  | none => ""

/-- Source `extractCondition` (lines 365-370). -/
def extractCondition (n : ParseTreeNode) : String :=
  match n.children.find? (fun c => c.ty = "IF_CONDITION") with
  | some conditionNode => joinValues conditionNode.children
  | none => ""

/-- Source `hasElseBranch` (lines 372-374). -/
def hasElseBranch (n : ParseTreeNode) : Bool :=
  n.children.any (fun c => c.ty = "ELSE_STATEMENT")

mutual

/-- Source `findLoops` (lines 181-197): pre-order collection of FOR/WHILE nodes. -/
def findLoops : ParseTreeNode → List LoopInfo
  | n@(.mk _ ty _ _ _ children) =>
    (if ty = "FOR_STATEMENT" || ty = "WHILE_STATEMENT" then
       [⟨ty, isNestedLoop n, extractLoopCondition n⟩]
     else []) ++ findLoopsList children

def findLoopsList : List ParseTreeNode → List LoopInfo
  | [] => []
  | c :: cs => findLoops c ++ findLoopsList cs

end

mutual

/-- Source `findConditionals` (lines 199-214): pre-order collection of IF nodes. -/
def findConditionals : ParseTreeNode → List CondInfo
  | n@(.mk _ ty _ _ _ children) =>
    (if ty = "IF_STATEMENT" then [⟨extractCondition n, hasElseBranch n⟩] else []) ++
      findConditionalsList children

def findConditionalsList : List ParseTreeNode → List CondInfo
  | [] => []
  | c :: cs => findConditionals c ++ findConditionalsList cs

end

mutual

/-- Source `findVariables` (lines 216-232): STATEMENT nodes whose first child is a
KEYWORD contribute `{type: children[0].value, name: children[1]?.value}` when
the name is truthy (present and nonempty). -/
def findVariables : ParseTreeNode → List VarDecl
  | .mk _ ty _ _ _ children =>
    (match children.head? with
     | some c0 =>
       if ty = "STATEMENT" && c0.ty = "KEYWORD" then
         match children[1]? with
         | some c1 =>
           match c1.value with
           | some name => if name ≠ "" then [⟨c0.value, name⟩] else []
           | none => []
         | none => []
       else []
     | none => []) ++ findVariablesList children

def findVariablesList : List ParseTreeNode → List VarDecl
  | [] => []
  | c :: cs => findVariables c ++ findVariablesList cs

end

/-- Source `calculateNestedLoopDepth` (lines 376-390): longest run of consecutive
`nested` flags in the loops list. -/
def calculateNestedLoopDepth (loops : List LoopInfo) : Nat :=
  (loops.foldl (fun (p : Nat × Nat) loop =>
    if loop.nested then (max p.1 (p.2 + 1), p.2 + 1) else (p.1, 0)) (0, 0)).1

/-- Source `isLogNComplexity` (lines 392-397). -/
def isLogNComplexity (condition : String) : Bool :=
  strIncludes condition "/= 2" || strIncludes condition ">>= 1" ||
    strIncludes condition "*= 2"

/-- Source `calculateTimeComplexity` (lines 234-262): returns `{complexity,
factors}` as a pair. -/
def calculateTimeComplexity (loops : List LoopInfo) (conditionals : List CondInfo) :
    Nat × List String :=
  let nestedDepth := calculateNestedLoopDepth loops
  let base : Nat × List String :=
    if nestedDepth > 0 then
      (min (nestedDepth + 2) 8, [toString nestedDepth ++ " level(s) of nested loops"])
    else (1, [])
  let afterLoops := loops.foldl (fun (p : Nat × List String) loop =>
    if isLogNComplexity loop.condition then
      (max p.1 2, p.2 ++ ["Logarithmic loop condition"])
    else p) base
  if conditionals.length > 0 then
    (afterLoops.1, afterLoops.2 ++ [toString conditionals.length ++ " conditional branches"])
  else afterLoops

/-- ASCII lowering, JS `toLowerCase` on the strings this program compares. -/
def strLower (s : String) : String := s.map Char.toLower

/-- Source `hasRecursion` (lines 399-405). -/
def hasRecursion (vdecls : List VarDecl) : Bool :=
  vdecls.any (fun v =>
    v.vty = some "function" && strIncludes (strLower v.name) "recursive")

/-- Source `calculateSpaceComplexity` (lines 264-291).  `v.type.toLowerCase()` is
total here because `vty` is `some` for every variable the pipeline produces
(a `none` would make the source throw). -/
def calculateSpaceComplexity (vdecls : List VarDecl) (_loops : List LoopInfo) :
    Nat × List String :=
  let dynamicAllocations := vdecls.filter (fun v =>
    match v.vty with
    | some t => strLower t = "array" || strLower t = "vector" || strLower t = "string"
    | none => false)
  let base : Nat × List String :=
    if dynamicAllocations.length > 0 then
      (2, ["Dynamic memory allocation for " ++ toString dynamicAllocations.length ++ " variable(s)"])
    else (1, [])
  let afterRec : Nat × List String :=
    if hasRecursion vdecls then
      (max base.1 3, base.2 ++ ["Recursive function calls"])
    else base
  (afterRec.1, afterRec.2 ++ [toString vdecls.length ++ " variable(s) declared"])

/-- Source `canOptimizeLoop` (lines 407-414). -/
def canOptimizeLoop (loop : LoopInfo) (sourceCode : String) : Bool :=
  strIncludes loop.condition "i++" || strIncludes sourceCode "array[i]" || loop.nested

/-- Source `generateOptimizationSuggestions` (lines 293-338), with the four pushes in
source order. -/
def generateOptimizationSuggestions (timeComplexity : Nat × List String)
    (spaceComplexity : Nat × List String) (loops : List LoopInfo)
    (conditionals : List CondInfo) (_variables : List VarDecl)
    (sourceCode : String) : List Suggestion :=
  let s1 : List Suggestion :=
    if timeComplexity.1 > 4 then
      [⟨"Consider reducing nested loops",
        "Multiple nested loops lead to high time complexity. Consider using more efficient data structures or algorithms."⟩]
    else []
  let s2 : List Suggestion :=
    s1 ++ (if spaceComplexity.1 > 2 then
      [⟨"Optimize memory usage",
        "Consider using memory pooling or reducing the number of dynamic allocations."⟩]
    else [])
  let s3 := loops.foldl (fun acc loop =>
    if canOptimizeLoop loop sourceCode then
      acc ++ [⟨"Loop optimization possible",
        "Consider combining loops or using a more efficient iteration strategy."⟩]
    else acc) s2
  if conditionals.length > 3 then
    s3 ++ [⟨"Simplify conditional logic",
      "Consider using a switch statement or lookup table instead of multiple if-else statements."⟩]
  else s3

/-- Source `estimateComplexity` (lines 143-179). -/
def estimateComplexity (parseTree : ParseTreeNode) (_controlFlow : ControlFlowNode)
    (sourceCode : String) : ComplexityInfo :=
  let loops := findLoops parseTree
  let conditionals := findConditionals parseTree
  let vdecls := findVariables parseTree
  let timeComplexity := calculateTimeComplexity loops conditionals
  let spaceComplexity := calculateSpaceComplexity vdecls loops
  let suggestions := generateOptimizationSuggestions timeComplexity spaceComplexity
    loops conditionals vdecls sourceCode
  { timeBigO := timeComplexity.1, timeFactors := timeComplexity.2
    spaceBigO := spaceComplexity.1, spaceDetails := spaceComplexity.2
    suggestions := suggestions }

/-! ### The top-level `compile` (lines 12-54) -/

/-- Source `CompilationResult`: `parseTree`, `controlFlow` and `complexity` are
nullable. -/
structure CompilationResult where
  tokens : List Token
  parseTree : Option ParseTreeNode
  scopes : List VariableScope
  controlFlow : Option ControlFlowNode
  complexity : Option ComplexityInfo
  errors : List CompilerError
  deriving Repr

/-- The try-branch of `compile`: the pipeline stages in order and the merged
error list (lexical ++ bracket ++ semantic).  The artificial 500ms delay has
no observable effect on the result and is omitted. -/
def compile (code : String) : CompilationResult :=
  let tokens := performLexicalAnalysis code
  let parseTree := performSyntaxAnalysis tokens
  let sem := performSemanticAnalysis parseTree
  let controlFlow := analyzeControlFlow parseTree
  let complexity := estimateComplexity parseTree controlFlow code
  let allErrors := findLexicalErrors tokens ++ findSyntaxErrors parseTree ++ sem.2
  { tokens := tokens, parseTree := some parseTree, scopes := sem.1
    controlFlow := some controlFlow, complexity := some complexity
    errors := allErrors }

/-- The catch-branch of `compile` (lines 37-53): the degraded result built
when a stage throws.  The argument is `e.message` when the thrown value is an
`Error`, `none` otherwise (then the text `Unknown error` is used). -/
def compileFaulted (e : Option String) : CompilationResult :=
  { tokens := [], parseTree := none, scopes := [], controlFlow := none
    complexity := none
    errors := [{ message := "Fatal error: " ++ e.getD "Unknown error"
                 line := 1, column := 1, severity := "error"
                 suggestions := ["Check for syntax errors",
                                 "Ensure all brackets are properly closed"] }] }

/-! ### Definitions taken from the specification's wording (for comparison
with the code) -/

mutual

/-- Stated from the spec, for comparison with the code: `maxNestingDepth` is
the maximum number of FOR_STATEMENT/WHILE_STATEMENT nodes nested along any
root-to-leaf path; IF_STATEMENT does not increase depth. -/
def maxNestingDepthSpec : ParseTreeNode → Nat
  | .mk _ ty _ _ _ cs =>
    if ty = "FOR_STATEMENT" || ty = "WHILE_STATEMENT" then
      maxNestingDepthSpecList cs + 1
    else maxNestingDepthSpecList cs

def maxNestingDepthSpecList : List ParseTreeNode → Nat
  | [] => 0
  | c :: cs => max (maxNestingDepthSpec c) (maxNestingDepthSpecList cs)

end

/-- Stated from the spec, for comparison with the code: does any of the eight
lexer patterns match *at the current position* (anchored at the head of the
remaining input)?  For the six fully-anchored patterns this coincides with the
code's `exec`; for COMMENT and OPERATOR it keeps only the anchored part of the
alternation. -/
def anyPatternMatchesAnchored (s : List Char) : Bool :=
  (match s with
   | '/' :: '/' :: _ => true
   | _ => (blockCommentAt s).isSome) ||
  (keywordExec s).isSome || (identExec s).isSome || (stringExec s).isSome ||
  (numberExec s).isSome ||
  (match s with | c :: _ => isOpChar c | [] => false) ||
  (punctuationExec s).isSome || (whitespaceExec s).isSome

/-- The time-complexity ordinal the estimator reports for a parse tree (the
`time.bigO` field of `estimateComplexity`; the control-flow and source-text
arguments do not influence it). -/
def timeOrdinal (t : ParseTreeNode) : Nat :=
  (estimateComplexity t (analyzeControlFlow t) "").timeBigO

/-! ### Concrete values used by counterexamples and witnesses -/

/-- The end-to-end example input of the spec (claim C1). -/
def c1Input : String := "int x; for(int i=0;i<10;i++)\x7b x = i; \x7d"

/-- The parse tree of an input whose spec-side nesting depth is 0. -/
def depth0Tree : ParseTreeNode :=
  performSyntaxAnalysis (performLexicalAnalysis "int x;")

/-- The parse tree of an input that the parser does give a FOR_STATEMENT
(spec-side nesting depth 1). -/
def depth1Tree : ParseTreeNode :=
  performSyntaxAnalysis (performLexicalAnalysis "if(x)\x7b for(;;)\x7b \x7d \x7d")

/-- An IF_STATEMENT node with an IF_CONDITION child holding one leaf, as the
control-flow claims describe. -/
def ifNodeEx : ParseTreeNode :=
  .mk "n1" "IF_STATEMENT" none none none
    [.mk "n2" "IF_CONDITION" none none none
      [.mk "n3" "IDENTIFIER" (some "x") none none []]]

/-- A tree with exactly four IF_STATEMENT nodes (claim C9: more than 3 but not
more than 5 conditional branches). -/
def fourIfTree : ParseTreeNode :=
  .mk "r" "PROGRAM" none none none
    [.mk "i1" "IF_STATEMENT" none none none [],
     .mk "i2" "IF_STATEMENT" none none none [],
     .mk "i3" "IF_STATEMENT" none none none [],
     .mk "i4" "IF_STATEMENT" none none none []]

/-- A FOR_STATEMENT subtree and a declaration statement, used to witness the
scope-analysis claim C4. -/
def forSubtreeEx : ParseTreeNode :=
  .mk "n5" "FOR_STATEMENT" none none none
    [.mk "n6" "FOR_BODY" none none none []]

/-- Source `int y;` as a parse-tree statement. -/
def declStmtEx : ParseTreeNode :=
  .mk "n7" "STATEMENT" none none none
    [.mk "n8" "KEYWORD" (some "int") none none [],
     .mk "n9" "IDENTIFIER" (some "y") none none []]

/-- Does an association list of a scope's variables contain a key? -/
def hasVarKey (sc : VariableScope) (name : String) : Bool :=
  sc.vars.any (fun p => p.1 = name)

/-- The `currentScope` index points at an existing scope. -/
def semValid (st : SemState) : Prop := st.current < st.scopes.length

/-- The variable map of the global scope (index 0). -/
def headVars (st : SemState) : Option (List (String × VarInfo)) :=
  st.scopes.head?.map (fun sc => sc.vars)

/-- Scope `j` exists and its variable map contains `name`. -/
def hasKeyAt (st : SemState) (j : Nat) (name : String) : Prop :=
  ∃ sc, st.scopes.get? j = some sc ∧ hasVarKey sc name = true

mutual

/-- No node of the tree carries a line or column (true of everything the
parser builds). -/
def noPos : ParseTreeNode → Bool
  | .mk _ _ _ line column cs => line.isNone && column.isNone && noPosList cs

def noPosList : List ParseTreeNode → Bool
  | [] => true
  | c :: cs => noPos c && noPosList cs

/-- All positions in `st` are zero: every stack entry and every error carries
line 0 and column 0. -/
def zeroState (st : List BracketRec × List CompilerError) : Prop :=
  (∀ b ∈ st.1, b.line = 0 ∧ b.column = 0) ∧ (∀ e ∈ st.2, e.line = 0 ∧ e.column = 0)

end

/-! ## Theorems -/

/-! ### Helper lemmas about the estimator -/

mutual

theorem findLoops_nested_false : ∀ n : ParseTreeNode, ∀ l ∈ findLoops n, l.nested = false
  | .mk i t v li co cs => by
    intro l hl
    rw [findLoops] at hl
    rcases List.mem_append.1 hl with h | h
    · split at h
      · rcases List.mem_singleton.1 h with rfl
        rfl
      · cases h
    · exact findLoopsList_nested_false cs l h

theorem findLoopsList_nested_false : ∀ cs : List ParseTreeNode, ∀ l ∈ findLoopsList cs, l.nested = false
  | [] => by intro l hl; rw [findLoopsList] at hl; cases hl
  | c :: cs => by
    intro l hl
    rw [findLoopsList] at hl
    rcases List.mem_append.1 hl with h | h
    · exact findLoops_nested_false c l h
    · exact findLoopsList_nested_false cs l h

end

theorem depthFold_fst (loops : List LoopInfo) (a b : Nat)
    (h : ∀ l ∈ loops, l.nested = false) :
    (loops.foldl (fun (p : Nat × Nat) loop =>
       if loop.nested then (max p.1 (p.2 + 1), p.2 + 1) else (p.1, 0)) (a, b)).1 = a := by
  induction loops generalizing b with
  | nil => rfl
  | cons l ls ih =>
    have hl : l.nested = false := h l (List.mem_cons_self l ls)
    simp only [List.foldl_cons, hl, Bool.false_eq_true, if_false]
    exact ih 0 (fun x hx => h x (List.mem_cons_of_mem l hx))

theorem calculateNestedLoopDepth_zero (loops : List LoopInfo)
    (h : ∀ l ∈ loops, l.nested = false) : calculateNestedLoopDepth loops = 0 :=
  depthFold_fst loops 0 0 h

theorem timeFold_ge2 (loops : List LoopInfo) (m : Nat) (f : List String) (hm : 2 ≤ m) :
    (loops.foldl (fun (p : Nat × List String) loop =>
       if isLogNComplexity loop.condition then (max p.1 2, p.2 ++ ["Logarithmic loop condition"])
       else p) (m, f)).1 = m := by
  induction loops generalizing f with
  | nil => rfl
  | cons l ls ih =>
    simp only [List.foldl_cons]
    by_cases hc : isLogNComplexity l.condition
    · simp only [hc, if_true]
      rw [show max m 2 = m from Nat.max_eq_left hm]
      exact ih _
    · simp only [hc, Bool.false_eq_true, if_false]
      exact ih _

theorem timeFold_from1 (loops : List LoopInfo) (f : List String) :
    (loops.foldl (fun (p : Nat × List String) loop =>
       if isLogNComplexity loop.condition then (max p.1 2, p.2 ++ ["Logarithmic loop condition"])
       else p) (1, f)).1 =
      if loops.any (fun l => isLogNComplexity l.condition) then 2 else 1 := by
  induction loops generalizing f with
  | nil => rfl
  | cons l ls ih =>
    simp only [List.foldl_cons, List.any_cons]
    by_cases hc : isLogNComplexity l.condition
    · simp only [hc, if_true, Bool.true_or, if_true]
      exact timeFold_ge2 ls _ _ (le_refl 2)
    · simp only [hc, Bool.false_eq_true, if_false, Bool.false_or]
      exact ih _

theorem suggFold_mem (loops : List LoopInfo) (src : String) (acc : List Suggestion)
    (s : Suggestion)
    (h : s ∈ loops.foldl (fun acc loop =>
           if canOptimizeLoop loop src then
             acc ++ [⟨"Loop optimization possible",
               "Consider combining loops or using a more efficient iteration strategy."⟩]
           else acc) acc) :
    s ∈ acc ∨ s.title = "Loop optimization possible" := by
  induction loops generalizing acc with
  | nil => exact Or.inl h
  | cons l ls ih =>
    simp only [List.foldl_cons] at h
    by_cases hc : canOptimizeLoop l src
    · simp only [hc, if_true] at h
      rcases ih _ h with h' | h'
      · rcases List.mem_append.1 h' with h'' | h''
        · exact Or.inl h''
        · rcases List.mem_singleton.1 h'' with rfl
          exact Or.inr rfl
      · exact Or.inr h'
    · simp only [hc, Bool.false_eq_true, if_false] at h
      exact ih _ h

/-! ### Claim C2 -/

/-- C2, counterexample.  The claim says the estimator's ordinal is the image
of the spec's `maxNestingDepth` (capped at 3) under a mapping sending depth 0
and depth 1 to the distinct classes "O(1)" and "O(n)".  No such mapping
exists: the pipeline's parse trees for `"int x;"` (depth 0) and
`"if(x){ for(;;){ } }"` (depth 1, one FOR_STATEMENT) both get ordinal 1,
because no node ever has a `parent` link, so `isNestedLoop` is always false
and `calculateNestedLoopDepth` is always 0. -/
theorem c2_counterexample :
    ¬ ∃ f : Nat → Nat, f 0 ≠ f 1 ∧
      ∀ t : ParseTreeNode, timeOrdinal t = f (min (maxNestingDepthSpec t) 3) := by
  rintro ⟨f, hne, h⟩
  have h0 := h depth0Tree
  have h1 := h depth1Tree
  have e0 : timeOrdinal depth0Tree = 1 := by decide
  have e1 : timeOrdinal depth1Tree = 1 := by decide
  have d0 : maxNestingDepthSpec depth0Tree = 0 := by decide
  have d1 : maxNestingDepthSpec depth1Tree = 1 := by decide
  rw [e0, d0] at h0
  rw [e1, d1] at h1
  rw [show (min 0 3 : Nat) = 0 from rfl] at h0
  rw [show (min 1 3 : Nat) = 1 from rfl] at h1
  exact hne (h0.symm.trans h1)

/-- C2, amended: for every parse tree the estimator's time-complexity ordinal
is independent of nesting depth: it is 2 when some collected loop's condition
contains a logarithmic pattern (`/= 2`, `>>= 1`, `*= 2`) and 1 otherwise.
(The `parent` field is never assigned, so `isNestedLoop` is false for every
loop, `calculateNestedLoopDepth` is 0, and the depth-based branch never
fires.) -/
theorem c2_amended (t : ParseTreeNode) :
    timeOrdinal t =
      if (findLoops t).any (fun l => isLogNComplexity l.condition) then 2 else 1 := by
  have hz : calculateNestedLoopDepth (findLoops t) = 0 :=
    calculateNestedLoopDepth_zero _ (findLoops_nested_false t)
  unfold timeOrdinal estimateComplexity
  simp only
  unfold calculateTimeComplexity
  rw [hz]
  simp only [gt_iff_lt, Nat.lt_irrefl, if_false]
  split
  · exact timeFold_from1 _ _
  · exact timeFold_from1 _ _

/-! ### Claim C3 -/

/-- C3, counterexample: `ifNodeEx` is an IF_STATEMENT with a direct
IF_CONDITION child carrying the leaf value `x`, yet the flow node built for it
carries no condition entry at all (the source only handles FOR_STATEMENT and
WHILE_STATEMENT), not one BRANCH entry as claimed. -/
theorem c3_counterexample :
    ifNodeEx.ty = "IF_STATEMENT" ∧
    (ifNodeEx.children.map (fun c => c.ty)) = ["IF_CONDITION"] ∧
    (createFlowNode ifNodeEx).conditions = [] := by
  refine ⟨rfl, rfl, ?_⟩
  decide

/-- C3, amended: the flow node built for an IF_STATEMENT parse node carries no
condition entries; only FOR_STATEMENT/WHILE_STATEMENT nodes get a (LOOP-role)
entry. -/
theorem c3_amended (n : ParseTreeNode) (h : n.ty = "IF_STATEMENT") :
    (createFlowNode n).conditions = [] := by
  cases n with
  | mk i t v li co cs =>
    rw [ParseTreeNode.ty] at h
    subst h
    rw [createFlowNode]
    rfl

/-- C3, witness: the amended theorem applied to the concrete IF node. -/
theorem c3_witness : (createFlowNode ifNodeEx).conditions = [] :=
  c3_amended ifNodeEx rfl

/-! ### Claim C5 -/

/-- C5, confirmed: `"int x = (1;"` yields exactly one diagnostic, an
`Unclosed bracket: (` error and no mismatched-bracket error; `"int x = (1));"`
yields exactly one diagnostic, a `Mismatched brackets` error and no
unclosed-bracket error. -/
theorem c5_bracket_diagnostics :
    ((compile "int x = (1;").errors.map (fun e => e.message) =
        ["Unclosed bracket: ("]) ∧
    ((compile "int x = (1;").errors.all
        (fun e => !(startsWithList "Mismatched brackets".data e.message.data)) = true) ∧
    ((compile "int x = (1));").errors.map (fun e => e.message) =
        ["Mismatched brackets: expected closing bracket"]) ∧
    ((compile "int x = (1));").errors.all
        (fun e => startsWithList "Mismatched brackets".data e.message.data) = true) := by
  refine ⟨by decide, by decide, by decide, by decide⟩

/-! ### Claim C8 -/

/-- C8, confirmed: the catch-branch of `compile` returns the degraded result
with empty tokens and scopes, null tree/flow/complexity, and exactly one
severity-`error` diagnostic whose message embeds the fault's description
(`e.message` for an `Error`; the text `Unknown error` otherwise). -/
theorem c8_fatal_error_shape (msg : String) :
    (compileFaulted (some msg)).tokens = [] ∧
    (compileFaulted (some msg)).scopes = [] ∧
    (compileFaulted (some msg)).parseTree = none ∧
    (compileFaulted (some msg)).controlFlow = none ∧
    (compileFaulted (some msg)).complexity = none ∧
    (compileFaulted (some msg)).errors.map (fun e => e.message) =
      ["Fatal error: " ++ msg] ∧
    (compileFaulted (some msg)).errors.map (fun e => e.severity) = ["error"] ∧
    (∃ pre post, "Fatal error: " ++ msg = pre ++ msg ++ post) ∧
    (compileFaulted none).errors.map (fun e => e.message) =
      ["Fatal error: Unknown error"] := by
  refine ⟨rfl, rfl, rfl, rfl, rfl, rfl, rfl, ⟨"Fatal error: ", "", ?_⟩, rfl⟩
  simp

/-! ### Claim C9 -/

/-- C9, counterexample: a tree with four IF_STATEMENT nodes (4 is not greater
than 5) still receives the conditional-simplification suggestion, because the
source's threshold is `conditionals.length > 3`, not `> 5`. -/
theorem c9_counterexample :
    (findConditionals fourIfTree).length = 4 ∧
    ¬ (5 < (findConditionals fourIfTree).length) ∧
    (∃ s ∈ (estimateComplexity fourIfTree (analyzeControlFlow fourIfTree) "").suggestions,
       s.title = "Simplify conditional logic") := by
  refine ⟨by decide, by decide, ?_⟩
  refine ⟨⟨"Simplify conditional logic",
    "Consider using a switch statement or lookup table instead of multiple if-else statements."⟩,
    by decide, rfl⟩

/-- C9, amended: the complexity report contains the conditional-simplification
suggestion exactly when the number of IF_STATEMENT occurrences found in the
parse tree is greater than 3 (not 5). -/
theorem c9_amended (t : ParseTreeNode) (cf : ControlFlowNode) (src : String) :
    (∃ s ∈ (estimateComplexity t cf src).suggestions,
       s.title = "Simplify conditional logic") ↔
      3 < (findConditionals t).length := by
  unfold estimateComplexity
  simp only
  unfold generateOptimizationSuggestions
  constructor
  · rintro ⟨s, hs, hstitle⟩
    by_contra hlen
    simp only [gt_iff_lt, hlen, if_false] at hs
    rcases suggFold_mem _ _ _ _ hs with h' | h'
    · rcases List.mem_append.1 h' with h'' | h''
      · split at h''
        · rcases List.mem_singleton.1 h'' with rfl
          simp at hstitle
        · cases h''
      · split at h''
        · rcases List.mem_singleton.1 h'' with rfl
          simp at hstitle
        · cases h''
    · rw [hstitle] at h'
      simp at h'
  · intro hlen
    simp only [gt_iff_lt, hlen, if_true]
    exact ⟨_, List.mem_append_right _ (List.mem_singleton.2 rfl), rfl⟩

/-! ### Claim C1 -/

/-- C1, counterexample.  On the spec's end-to-end example input the claim
fails on every point: the parse tree root has only one child (a flat
STATEMENT; the unanchored `\+\+` operator alternative mis-lexes the input so
the `for` keyword is swallowed into the first statement), the time factors are
empty, and the diagnostics are not empty (one mismatched-bracket error from
the lone `)` leaf). -/
theorem c1_counterexample :
    ¬ (((compile c1Input).parseTree.map (fun t => t.children.map (fun c => c.ty)) =
          some ["STATEMENT", "FOR_STATEMENT"]) ∧
       ((compile c1Input).complexity.map
          (fun c => c.timeFactors.contains "Contains 1 loop(s)") = some true) ∧
       ((compile c1Input).errors = [])) := by
  intro h
  exact absurd h.1 (by decide)

/-- C1, amended: on the input `"int x; for(int i=0;i<10;i++){ x = i; }"` the
root has exactly one child, a STATEMENT; the time-complexity ordinal is 1 (the
base class, zero loops found) with no factors; and the diagnostics are exactly
one `Mismatched brackets` error. -/
theorem c1_amended :
    ((compile c1Input).parseTree.map (fun t => t.children.map (fun c => c.ty)) =
        some ["STATEMENT"]) ∧
    ((compile c1Input).complexity.map (fun c => (c.timeBigO, c.timeFactors)) =
        some (1, [])) ∧
    ((compile c1Input).errors.map (fun e => e.message) =
        ["Mismatched brackets: expected closing bracket"]) ∧
    (maxNestingDepthSpec (performSyntaxAnalysis (performLexicalAnalysis c1Input)) = 0) := by
  refine ⟨by decide, by decide, by decide, by decide⟩

/-! ### Claim C6 -/

theorem noPosList_append (a b : List ParseTreeNode) :
    noPosList (a ++ b) = (noPosList a && noPosList b) := by
  induction a with
  | nil => simp [noPosList]
  | cons c cs ih => simp [noPosList, ih, Bool.and_assoc]

theorem makeLeaves_noPos (ts : List Token) : ∀ cnt, noPosList (makeLeaves cnt ts).1 = true := by
  induction ts with
  | nil => intro cnt; rfl
  | cons t r ih =>
    intro cnt
    simp only [makeLeaves]
    rw [noPosList]
    simp only [leafNode]
    rw [noPos, ih (cnt + 1)]
    rfl

theorem parseFunctionBody_noPos (fuel : Nat) :
    ∀ ts bc cnt, noPosList (parseFunctionBody fuel ts bc cnt).1 = true := by
  induction fuel with
  | zero => intro ts bc cnt; rfl
  | succ fuel ih =>
    intro ts bc cnt
    cases ts with
    | nil => rfl
    | cons t rest =>
      cases bc with
      | zero => rfl
      | succ bc =>
        rw [parseFunctionBody]
        cases hfor : (t.ty = "KEYWORD" && t.value = "for") with
        | false =>
          simp only [hfor, Bool.false_eq_true, if_false]
          exact ih _ _ _
        | true =>
          simp only [hfor, if_true]
          repeat' split
          all_goals simp only [noPosList, noPos, noPosList_append, makeLeaves_noPos,
            ih, Option.isNone_none, Bool.true_and, Bool.and_true, Bool.and_self,
            List.append_nil, List.nil_append]

theorem syntaxLoop_noPos (fuel : Nat) :
    ∀ ts cnt, noPosList (syntaxLoop fuel ts cnt).1 = true := by
  induction fuel with
  | zero => intro ts cnt; rfl
  | succ fuel ih =>
    intro ts cnt
    cases ts with
    | nil => rfl
    | cons t rest =>
      rw [syntaxLoop]
      by_cases hk : t.ty = "KEYWORD"
      case neg =>
        simp only [hk, if_false]
        exact ih _ _
      case pos =>
        simp only [hk, if_true]
        repeat' split
        all_goals simp only [noPosList, noPos, noPosList_append, makeLeaves_noPos,
          ih, parseFunctionBody_noPos, Option.isNone_none, Bool.true_and,
          Bool.and_true, Bool.and_self, List.append_nil, List.nil_append]

/-- Every tree built by the parser is free of line/column annotations. -/
theorem performSyntaxAnalysis_noPos (ts : List Token) :
    noPos (performSyntaxAnalysis ts) = true := by
  rw [performSyntaxAnalysis, noPos, syntaxLoop_noPos]
  rfl

theorem checkNodeStep_zeros (ty : String) (v : Option String)
    (st : List BracketRec × List CompilerError) (h : zeroState st) :
    zeroState (checkNodeStep ty v none none st) := by
  rw [checkNodeStep]
  by_cases h1 : ty = "PUNCTUATION"
  case neg =>
    simp only [h1, if_false]
    exact h
  case pos =>
  simp only [h1, if_true]
  by_cases h2 : ((v.getD "" = "\x7b" : Bool) || (v.getD "" = "(" : Bool) ||
      (v.getD "" = "[" : Bool)) = true
  · simp only [h2, if_true]
    refine ⟨?_, h.2⟩
    intro b hb
    rcases List.mem_cons.1 hb with rfl | hb'
    · exact ⟨by simp, by simp⟩
    · exact h.1 b hb'
  · rw [Bool.not_eq_true] at h2
    simp only [h2, Bool.false_eq_true, if_false]
    by_cases h3 : ((v.getD "" = "\x7d" : Bool) || (v.getD "" = ")" : Bool) ||
        (v.getD "" = "]" : Bool)) = true
    · simp only [h3, if_true]
      rcases hst : st.1 with _ | ⟨last, restStack⟩
      · simp only [hst]
        refine ⟨(by intro b hb; cases hb), ?_⟩
        intro e he
        rcases List.mem_append.1 he with he' | he'
        · exact h.2 e he'
        · rcases List.mem_singleton.1 he' with rfl
          exact ⟨by simp, by simp⟩
      · simp only [hst]
        by_cases h4 : matchingBrackets last.char (v.getD "") = true
        · simp only [h4, if_true]
          refine ⟨?_, h.2⟩
          intro b hb
          exact h.1 b (by rw [hst]; exact List.mem_cons_of_mem _ hb)
        · rw [Bool.not_eq_true] at h4
          simp only [h4, Bool.false_eq_true, if_false]
          refine ⟨?_, ?_⟩
          · intro b hb
            exact h.1 b (by rw [hst]; exact List.mem_cons_of_mem _ hb)
          · intro e he
            rcases List.mem_append.1 he with he' | he'
            · exact h.2 e he'
            · rcases List.mem_singleton.1 he' with rfl
              exact ⟨by simp, by simp⟩
    · rw [Bool.not_eq_true] at h3
      simp only [h3, Bool.false_eq_true, if_false]
      exact h

mutual

theorem checkNode_zeros : ∀ (n : ParseTreeNode) (st : List BracketRec × List CompilerError),
    noPos n = true → zeroState st → zeroState (checkNode n st)
  | .mk i t v line col cs, st => by
    intro hn hst
    rw [noPos] at hn
    obtain ⟨⟨hline, hcol⟩, hcs⟩ : (line = none ∧ col = none) ∧ noPosList cs = true := by
      simpa using hn
    subst hline
    subst hcol
    rw [checkNode]
    exact checkNodes_zeros cs _ hcs (checkNodeStep_zeros t v st hst)

theorem checkNodes_zeros : ∀ (cs : List ParseTreeNode) (st : List BracketRec × List CompilerError),
    noPosList cs = true → zeroState st → zeroState (checkNodes cs st)
  | [], st => by
    intro _ hst
    exact hst
  | c :: cs, st => by
    intro hcs hst
    rw [noPosList] at hcs
    obtain ⟨h1, h2⟩ : noPos c = true ∧ noPosList cs = true := by simpa using hcs
    rw [checkNodes]
    exact checkNodes_zeros cs _ h2 (checkNode_zeros c st h1 hst)

end

theorem findSyntaxErrors_zeros (tree : ParseTreeNode) (h : noPos tree = true) :
    ∀ e ∈ findSyntaxErrors tree, e.line = 0 ∧ e.column = 0 := by
  intro e he
  rw [findSyntaxErrors] at he
  have hz := checkNode_zeros tree ([], []) h
    ⟨(by intro b hb; cases hb), (by intro x hx; cases hx)⟩
  rcases List.mem_append.1 he with he' | he'
  · exact hz.2 e he'
  · rcases List.mem_map.1 he' with ⟨b, hb, rfl⟩
    have hb' : b ∈ (checkNode tree ([], [])).1 := List.mem_reverse.1 hb
    exact ⟨(hz.1 b hb').1, (hz.1 b hb').2⟩

/-- C6, amended: every bracket diagnostic produced on a parser-built tree
carries line 0 and column 0, because the parser's nodes have no line/column
and `findSyntaxErrors` defaults the missing positions to 0; the lexer's token
positions are never propagated into the tree. -/
theorem c6_amended (ts : List Token) :
    (findSyntaxErrors (performSyntaxAnalysis ts)).all
      (fun e => e.line == 0 && e.column == 0) = true := by
  rw [List.all_eq_true]
  intro e he
  have hz := findSyntaxErrors_zeros _ (performSyntaxAnalysis_noPos ts) e he
  simp [hz.1, hz.2]

/-- C6, counterexample: for `"int x = (1;"` the lexer places the unmatched `(`
at line 1, column 9, but the unclosed-bracket diagnostic is reported at line
0, column 0 — not at the position the lexer assigned. -/
theorem c6_counterexample :
    ((performLexicalAnalysis "int x = (1;").any
       (fun t => t.ty == "PUNCTUATION" && t.value == "(" &&
         t.line == 1 && t.column == 9) = true) ∧
    ((compile "int x = (1;").errors.map (fun e => (e.message, e.line, e.column)) =
      [("Unclosed bracket: (", 0, 0)]) := by
  refine ⟨by decide, by decide⟩

/-! ### Claim C7: the lexer's matches are never empty, so the scan always
consumes the whole input -/

theorem scanToClose_ne_nil : ∀ (l m : List Char), scanToClose l = some m → m ≠ [] := by
  intro l
  induction l using scanToClose.induct with
  | case1 => intro m h; rw [scanToClose] at h; cases h
  | case2 => intro m h; rw [scanToClose] at h; cases h
  | case3 tail => intro m h; rw [scanToClose] at h; cases h; simp
  | case4 c rest h1 h2 ih =>
    intro m h
    rw [scanToClose] at h
    · rcases Option.map_eq_some'.1 h with ⟨t, _, rfl⟩
      simp
    · exact h1
    · exact h2

theorem blockCommentAt_ne_nil : ∀ (l m : List Char), blockCommentAt l = some m → m ≠ [] := by
  intro l m h
  unfold blockCommentAt at h
  split at h
  · rcases Option.map_eq_some'.1 h with ⟨t, _, rfl⟩
    simp
  · cases h

theorem blockCommentSearch_ne_nil :
    ∀ (l m : List Char), blockCommentSearch l = some m → m ≠ [] := by
  intro l
  induction l with
  | nil => intro m h; rw [blockCommentSearch] at h; cases h
  | cons c rest ih =>
    intro m h
    rw [blockCommentSearch] at h
    rcases hb : blockCommentAt (c :: rest) with _ | m'
    · rw [hb] at h
      exact ih m h
    · rw [hb] at h
      cases h
      exact blockCommentAt_ne_nil _ _ hb

theorem commentExec_ne_nil : ∀ (s m : List Char), commentExec s = some m → m ≠ [] := by
  intro s m h
  unfold commentExec at h
  split at h
  · cases h
    simp
  · exact blockCommentSearch_ne_nil _ _ h

theorem keywordExec_ne_nil (s m : List Char) (h : keywordExec s = some m) : m ≠ [] := by
  have hmem := List.mem_of_find?_eq_some h
  have : ∀ k ∈ keywordList, k ≠ ([] : List Char) := by decide
  exact this m hmem

theorem identExec_ne_nil (s m : List Char) (h : identExec s = some m) : m ≠ [] := by
  cases s with
  | nil => rw [identExec] at h; cases h
  | cons c rest =>
    rw [identExec] at h
    by_cases hc : isIdentStart c = true
    · simp only [hc, if_true] at h
      cases h
      simp
    · rw [Bool.not_eq_true] at hc
      simp only [hc, Bool.false_eq_true, if_false] at h
      cases h

theorem stringExec_ne_nil (s m : List Char) (h : stringExec s = some m) : m ≠ [] := by
  unfold stringExec at h
  repeat' split at h
  all_goals cases h
  all_goals simp

theorem numberExec_ne_nil (s m : List Char) (h : numberExec s = some m) : m ≠ [] := by
  cases s with
  | nil => rw [numberExec] at h; cases h
  | cons c rest =>
    rw [numberExec] at h
    by_cases hc : isDigitChar c = true
    · simp only [hc, if_true] at h
      have hmem := List.mem_of_find?_eq_some h
      have hd : (c :: rest).takeWhile isDigitChar = c :: rest.takeWhile isDigitChar := by
        simp [List.takeWhile_cons, hc]
      rw [hd] at hmem
      intro hm0
      subst hm0
      repeat' split at hmem
      all_goals simp_all
    · rw [Bool.not_eq_true] at hc
      simp only [hc, Bool.false_eq_true, if_false] at h
      cases h

theorem pairScan_ne_nil (l : List Char) : ∀ m, pairScan l = some m → m ≠ [] := by
  induction l with
  | nil => intro m h; cases h
  | cons a rest ih =>
    intro m h
    cases rest with
    | nil => cases h
    | cons b rest' =>
      rw [pairScan] at h
      split at h
      · cases h
        simp
      · exact ih m h

theorem operatorExec_ne_nil (s m : List Char) (h : operatorExec s = some m) : m ≠ [] := by
  cases s with
  | nil => rw [operatorExec] at h; cases h
  | cons c rest =>
    rw [operatorExec] at h
    by_cases hc : isOpChar c = true
    · simp only [hc, if_true] at h
      split at h
      · cases h; simp
      · cases h; simp
    · rw [Bool.not_eq_true] at hc
      simp only [hc, Bool.false_eq_true, if_false] at h
      exact pairScan_ne_nil _ _ h

theorem punctuationExec_ne_nil (s m : List Char) (h : punctuationExec s = some m) :
    m ≠ [] := by
  cases s with
  | nil => rw [punctuationExec] at h; cases h
  | cons c rest =>
    rw [punctuationExec] at h
    split at h
    · cases h; simp
    · cases h

theorem whitespaceExec_ne_nil (s m : List Char) (h : whitespaceExec s = some m) :
    m ≠ [] := by
  cases s with
  | nil => rw [whitespaceExec] at h; cases h
  | cons c rest =>
    rw [whitespaceExec] at h
    by_cases hc : isJsSpace c = true
    · simp only [hc, if_true] at h
      cases h
      rw [List.takeWhile_cons, hc]
      simp
    · rw [Bool.not_eq_true] at hc
      simp only [hc, Bool.false_eq_true, if_false] at h
      cases h

theorem pickLonger_ne_nil (acc : Option (String × List Char)) (ty : String)
    (r : Option (List Char))
    (hacc : ∀ t m, acc = some (t, m) → m ≠ [])
    (hr : ∀ m, r = some m → m ≠ []) :
    ∀ t m, pickLonger acc ty r = some (t, m) → m ≠ [] := by
  intro t m h
  rcases r with _ | m'
  · rcases acc with _ | ⟨t0, m0⟩
    · simp only [pickLonger] at h
      exact Option.noConfusion h
    · simp only [pickLonger] at h
      cases h
      exact hacc _ _ rfl
  · rcases acc with _ | ⟨t0, m0⟩
    · simp only [pickLonger] at h
      cases h
      exact hr _ rfl
    · simp only [pickLonger] at h
      split at h
      · cases h
        exact hr _ rfl
      · cases h
        exact hacc _ _ rfl

theorem bestMatch_ne_nil (s : List Char) :
    ∀ ty m, bestMatch s = some (ty, m) → m ≠ [] := by
  rw [bestMatch]
  refine pickLonger_ne_nil _ _ _ (pickLonger_ne_nil _ _ _ (pickLonger_ne_nil _ _ _
    (pickLonger_ne_nil _ _ _ (pickLonger_ne_nil _ _ _ (pickLonger_ne_nil _ _ _
      (pickLonger_ne_nil _ _ _ (pickLonger_ne_nil _ _ _
        (by intro t m h; cases h)
        (commentExec_ne_nil s))
        (keywordExec_ne_nil s))
        (identExec_ne_nil s))
        (stringExec_ne_nil s))
        (numberExec_ne_nil s))
        (operatorExec_ne_nil s))
        (punctuationExec_ne_nil s))
    (whitespaceExec_ne_nil s)

/-- One step of `lexGo` on a nonempty remaining input, by definitional
unfolding. -/
theorem lexGo_succ_cons (fuel line col : Nat) (c : Char) (rest : List Char) :
    lexGo (fuel + 1) line col (c :: rest) =
      match bestMatch (c :: rest) with
      | some (ty, m) =>
        ((if ty ≠ "WHITESPACE" && ty ≠ "COMMENT" then
            (⟨ty, String.mk m, line, col⟩ : Token) ::
              (lexGo fuel (advancePos line col m).1 (advancePos line col m).2
                ((c :: rest).drop m.length)).1
          else (lexGo fuel (advancePos line col m).1 (advancePos line col m).2
                ((c :: rest).drop m.length)).1),
         (lexGo fuel (advancePos line col m).1 (advancePos line col m).2
           ((c :: rest).drop m.length)).2)
      | none =>
        ((⟨"ERROR", String.mk [c], line, col⟩ : Token) ::
           (lexGo fuel line (col + 1) rest).1,
         (lexGo fuel line (col + 1) rest).2) := rfl

/-- With fuel at least the length of the remaining input, the lexer's scan
loop consumes everything: the leftover input it returns is empty. -/
theorem lexGo_consumes (fuel : Nat) :
    ∀ (s : List Char) (line col : Nat), s.length ≤ fuel →
      (lexGo fuel line col s).2 = [] := by
  induction fuel with
  | zero =>
    intro s line col hs
    have : s = [] := List.length_eq_zero.1 (Nat.le_zero.1 hs)
    subst this
    rfl
  | succ fuel ih =>
    intro s line col hs
    cases s with
    | nil => rfl
    | cons c rest =>
      rcases hb : bestMatch (c :: rest) with _ | ⟨ty, m⟩
      · rw [lexGo_succ_cons, hb]
        exact ih rest line (col + 1) (by simpa using Nat.le_of_succ_le_succ hs)
      · rw [lexGo_succ_cons, hb]
        have hm : m ≠ [] := bestMatch_ne_nil _ _ _ hb
        have hlen : ((c :: rest).drop m.length).length ≤ fuel := by
          rw [List.length_drop]
          have h1 : 1 ≤ m.length := Nat.one_le_iff_ne_zero.2 (by
            simpa [List.length_eq_zero] using hm)
          have h2 : (c :: rest).length ≤ fuel + 1 := hs
          omega
        exact ih _ _ _ hlen

/-- C7, amended: tokenization always terminates and fully consumes the input
(each selected match is nonempty, so each step consumes at least one
character), and when the code's pattern search finds no match at all, one
ERROR token carrying the current character is emitted and the column advances
by one.  However, a step where no pattern matches *at the current position*
need not produce an ERROR token: the unanchored `&&`/`||`/`++`/`--` and
block-comment alternatives can select a match found further along, consuming
that many characters from the front (see `c7_counterexample`). -/
theorem c7_amended :
    (∀ (code : List Char) (line col : Nat), (lexGo code.length line col code).2 = []) ∧
    (∀ (fuel line col : Nat) (c : Char) (rest : List Char),
      bestMatch (c :: rest) = none →
      lexGo (fuel + 1) line col (c :: rest) =
        (⟨"ERROR", String.mk [c], line, col⟩ :: (lexGo fuel line (col + 1) rest).1,
         (lexGo fuel line (col + 1) rest).2)) := by
  constructor
  · intro code line col
    exact lexGo_consumes code.length code line col (le_refl _)
  · intro fuel line col c rest h
    rw [lexGo_succ_cons, h]

/-- C7, witness: the amended theorem applied to the input `"ab"` and to a
one-character input `@` on which the pattern search fails. -/
theorem c7_witness :
    ((lexGo "ab".data.length 1 1 "ab".data).2 = []) ∧
    (lexGo 1 1 1 ['@'] =
      (⟨"ERROR", String.mk ['@'], 1, 1⟩ :: (lexGo 0 1 2 []).1, (lexGo 0 1 2 []).2)) :=
  ⟨c7_amended.1 "ab".data 1 1, c7_amended.2 0 1 1 '@' [] (by decide)⟩

/-- C7, counterexample: on the input `"@&&"` no pattern matches at the current
position (the head character `@`), yet the lexer does not emit an ERROR token
for `@` and does not advance one column: the unanchored `&&` alternative of
the OPERATOR pattern matches at offset 1, wins as the longest match, and the
code consumes two characters (`@` and `&`) while emitting an OPERATOR token
with text `&&`. -/
theorem c7_counterexample :
    anyPatternMatchesAnchored "@&&".data = false ∧
    performLexicalAnalysis "@&&" =
      [⟨"OPERATOR", "&&", 1, 1⟩, ⟨"OPERATOR", "&", 1, 3⟩] ∧
    (performLexicalAnalysis "@&&").all (fun t => t.ty != "ERROR") = true := by
  refine ⟨by decide, by decide, by decide⟩

/-! ### Claim C10 -/

theorem makeLeaves_children (ts : List Token) :
    ∀ cnt, ∀ x ∈ (makeLeaves cnt ts).1, x.children = [] := by
  induction ts with
  | nil => intro cnt x hx; cases hx
  | cons t r ih =>
    intro cnt x hx
    rw [makeLeaves] at hx
    rcases List.mem_cons.1 hx with rfl | hx'
    · rfl
    · exact ih (cnt + 1) x hx'

theorem syntaxLoop_types (fuel : Nat) :
    ∀ ts cnt, ∀ c ∈ (syntaxLoop fuel ts cnt).1, c.ty = "STATEMENT" := by
  induction fuel with
  | zero => intro ts cnt c hc; cases hc
  | succ fuel ih =>
    intro ts cnt c hc
    cases ts with
    | nil => cases hc
    | cons t rest =>
      rw [syntaxLoop] at hc
      by_cases hk : t.ty = "KEYWORD"
      · simp only [hk, if_true] at hc
        rcases List.mem_cons.1 hc with rfl | hc'
        · rfl
        · exact ih _ _ c hc'
      · simp only [hk, if_false] at hc
        exact ih _ _ c hc

theorem syntaxLoop_flat (fuel : Nat) :
    ∀ ts cnt, (∀ t ∈ ts, t.value ≠ "\x7b") →
      ∀ c ∈ (syntaxLoop fuel ts cnt).1, ∀ g ∈ c.children, g.children = [] := by
  induction fuel with
  | zero => intro ts cnt _ c hc; cases hc
  | succ fuel ih =>
    intro ts cnt hnb c hc
    cases ts with
    | nil => cases hc
    | cons t rest =>
      rw [syntaxLoop] at hc
      by_cases hk : t.ty = "KEYWORD"
      case neg =>
        simp only [hk, if_false] at hc
        exact ih rest cnt (fun x hx => hnb x (List.mem_cons_of_mem t hx)) c hc
      case pos =>
        simp only [hk, if_true] at hc
        have hsub : ∀ x : Token,
            x ∈ (List.span (fun tok => tok.value ≠ ";" && tok.value ≠ "\x7b") (t :: rest)).2 →
            x ∈ t :: rest := by
          intro x hx
          rw [List.span_eq_take_drop] at hx
          exact List.Sublist.mem hx (List.dropWhile_sublist _)
        have hsub1 : ∀ x : Token,
            x ∈ ((List.span (fun tok => tok.value ≠ ";" && tok.value ≠ "\x7b")
              (t :: rest)).2.drop 1) → x ∈ t :: rest := by
          intro x hx
          exact hsub x (List.Sublist.mem hx (List.drop_sublist 1 _))
        rcases hh : (List.span (fun tok => tok.value ≠ ";" && tok.value ≠ "\x7b")
            (t :: rest)).2.head? with _ | tb
        · simp only [hh] at hc
          rcases List.mem_cons.1 hc with rfl | hc'
          · intro g hg
            simp only [ParseTreeNode.children, List.append_nil] at hg
            exact makeLeaves_children _ _ g hg
          · exact ih _ _ (fun x hx => hnb x (hsub1 x hx)) c hc'
        · have htb : tb.value ≠ "\x7b" :=
            hnb tb (hsub tb (List.mem_of_mem_head? (Option.mem_def.2 hh)))
          simp only [hh, if_neg htb] at hc
          rcases List.mem_cons.1 hc with rfl | hc'
          · intro g hg
            simp only [ParseTreeNode.children, List.append_nil] at hg
            exact makeLeaves_children _ _ g hg
          · exact ih _ _ (fun x hx => hnb x (hsub1 x hx)) c hc'

/-- C10, confirmed: for every token sequence, every direct child of the parse
root is a STATEMENT node (a top-level `for` keyword never yields a
FOR_STATEMENT; FOR_STATEMENT nodes are only created by the block parser), and
when the tokens contain no `{` at all — so block parsing can never be entered
— every statement is flat: its children are leaf nodes with no children of
their own. -/
theorem c10_top_level_flat (ts : List Token) :
    ((performSyntaxAnalysis ts).children.all (fun c => c.ty == "STATEMENT") = true) ∧
    (ts.all (fun t => t.value != "\x7b") = true →
      (performSyntaxAnalysis ts).children.all
        (fun c => c.children.all (fun g => g.children.isEmpty)) = true) := by
  constructor
  · rw [List.all_eq_true]
    intro c hc
    have hty := syntaxLoop_types ts.length ts 1 c
      (by simpa [performSyntaxAnalysis, ParseTreeNode.children] using hc)
    simp [hty]
  · intro hnb
    rw [List.all_eq_true]
    intro c hc
    rw [List.all_eq_true]
    intro g hg
    have hnb' : ∀ t ∈ ts, t.value ≠ "\x7b" := by
      rw [List.all_eq_true] at hnb
      intro t ht
      simpa using hnb t ht
    have hflat := syntaxLoop_flat ts.length ts 1 hnb' c
      (by simpa [performSyntaxAnalysis, ParseTreeNode.children] using hc) g hg
    simp [hflat]

/-- C10, witness: the theorem applied to the tokens of `"int x = 1;"` (an
input with no braces). -/
theorem c10_witness :
    ((performSyntaxAnalysis (performLexicalAnalysis "int x = 1;")).children.all
       (fun c => c.ty == "STATEMENT") = true) ∧
    ((performSyntaxAnalysis (performLexicalAnalysis "int x = 1;")).children.all
       (fun c => c.children.all (fun g => g.children.isEmpty)) = true) :=
  ⟨(c10_top_level_flat _).1, (c10_top_level_flat _).2 (by decide)⟩

/-! ### Claim C4: helper lemmas about the scope-analysis state -/

theorem updateNth_length (l : List α) (n : Nat) (f : α → α) :
    (updateNth l n f).length = l.length := by
  induction l generalizing n with
  | nil => rfl
  | cons a r ih =>
    cases n with
    | zero => rfl
    | succ n => simp [updateNth, ih]

theorem updateNth_get? (l : List α) (n j : Nat) (f : α → α) :
    (updateNth l n f).get? j = if j = n then (l.get? j).map f else l.get? j := by
  induction l generalizing n j with
  | nil => simp [updateNth]
  | cons a r ih =>
    cases n with
    | zero =>
      cases j with
      | zero => simp [updateNth]
      | succ j => simp [updateNth]
    | succ n =>
      cases j with
      | zero => simp [updateNth]
      | succ j => simpa [updateNth] using ih n j

theorem updateNth_head?_vars (l : List VariableScope) (n : Nat)
    (f : VariableScope → VariableScope) (hf : ∀ a, (f a).vars = a.vars) :
    (updateNth l n f).head?.map (fun sc => sc.vars) =
      l.head?.map (fun sc => sc.vars) := by
  cases l with
  | nil => rfl
  | cons a r =>
    cases n with
    | zero => simp [updateNth, hf]
    | succ n => simp [updateNth]

theorem mapSet_hasKey (m : List (String × VarInfo)) (k name : String) (v : VarInfo)
    (h : m.any (fun p => p.1 = name) = true) :
    (mapSet m k v).any (fun p => p.1 = name) = true := by
  induction m with
  | nil => cases h
  | cons p r ih =>
    rw [mapSet]
    by_cases hk : p.1 = k
    · simp only [hk, if_true]
      simp only [List.any_cons] at h ⊢
      rw [Bool.or_eq_true] at h
      rcases h with h' | h'
      · simp only [decide_eq_true_iff] at h'
        simp [hk ▸ h']
      · simp [h']
    · simp only [hk, if_false]
      simp only [List.any_cons] at h ⊢
      rw [Bool.or_eq_true] at h
      rcases h with h' | h'
      · simp [h']
      · simp [ih h']

theorem mapSet_hasKey_self (m : List (String × VarInfo)) (k : String) (v : VarInfo) :
    (mapSet m k v).any (fun p => p.1 = k) = true := by
  induction m with
  | nil => simp [mapSet]
  | cons p r ih =>
    rw [mapSet]
    by_cases hk : p.1 = k
    · simp [hk]
    · simp [hk, ih]

theorem declStep_scopes_length (n : ParseTreeNode) (idx : Nat) (st : SemState) :
    (declStep n idx st).scopes.length = st.scopes.length := by
  unfold declStep
  repeat' split
  all_goals simp [updateNth_length]

theorem declStep_current (n : ParseTreeNode) (idx : Nat) (st : SemState) :
    (declStep n idx st).current = st.current := by
  unfold declStep
  repeat' split
  all_goals rfl

theorem declStep_valid (n : ParseTreeNode) (idx : Nat) (st : SemState)
    (h : semValid st) : semValid (declStep n idx st) := by
  unfold semValid
  rw [declStep_scopes_length, declStep_current]
  exact h

theorem declStep_headVars (n : ParseTreeNode) (idx : Nat) (st : SemState)
    (h : idx ≠ 0) : headVars (declStep n idx st) = headVars st := by
  unfold declStep
  repeat' split
  all_goals try rfl
  all_goals
    rcases Nat.exists_eq_succ_of_ne_zero h with ⟨idx', rfl⟩
    unfold headVars
    cases hsc : st.scopes with
    | nil => simp [updateNth]
    | cons a r => simp [updateNth]

theorem declStep_hasKeyAt (n : ParseTreeNode) (idx : Nat) (st : SemState)
    (j : Nat) (name : String) (h : hasKeyAt st j name) :
    hasKeyAt (declStep n idx st) j name := by
  rcases h with ⟨sc, hget, hkey⟩
  unfold declStep
  repeat' split
  all_goals try exact ⟨sc, hget, hkey⟩
  all_goals
    unfold hasKeyAt
    simp only [updateNth_get?]
    by_cases hj : j = idx
    · subst hj
      rw [if_pos rfl, hget]
      refine ⟨_, rfl, ?_⟩
      unfold hasVarKey at hkey ⊢
      simpa using mapSet_hasKey _ _ _ _ hkey
    · rw [if_neg hj]
      exact ⟨sc, hget, hkey⟩

theorem declStep_nop (n : ParseTreeNode) (idx : Nat) (st : SemState)
    (h : n.ty ≠ "STATEMENT") : declStep n idx st = st := by
  unfold declStep
  repeat' split
  all_goals try rfl
  all_goals simp_all

theorem pushStep_nop (n : ParseTreeNode) (idx : Nat) (st : SemState)
    (h1 : n.ty ≠ "FOR_STATEMENT") (h2 : n.ty ≠ "IF_STATEMENT") :
    pushStep n idx st = st := by
  unfold pushStep
  simp [h1, h2]

theorem pushStep_scopes_length (n : ParseTreeNode) (idx : Nat) (st : SemState) :
    st.scopes.length ≤ (pushStep n idx st).scopes.length := by
  unfold pushStep
  split
  · simp [updateNth_length]
  · exact le_refl _

theorem pushStep_valid (n : ParseTreeNode) (idx : Nat) (st : SemState)
    (h : semValid st) : semValid (pushStep n idx st) := by
  unfold pushStep
  split
  · unfold semValid
    simp [updateNth_length]
  · exact h

theorem pushStep_current_ne (n : ParseTreeNode) (idx : Nat) (st : SemState)
    (hv : semValid st) (h : st.current ≠ 0) : (pushStep n idx st).current ≠ 0 := by
  unfold pushStep
  split
  · simp only
    unfold semValid at hv
    omega
  · exact h

theorem pushStep_forIf_current (n : ParseTreeNode) (idx : Nat) (st : SemState)
    (hty : n.ty = "FOR_STATEMENT" ∨ n.ty = "IF_STATEMENT")
    (hv : semValid st) : (pushStep n idx st).current ≠ 0 := by
  unfold pushStep
  rw [if_pos (by rcases hty with h | h <;> simp [h])]
  simp only
  unfold semValid at hv
  omega

theorem pushStep_headVars (n : ParseTreeNode) (idx : Nat) (st : SemState)
    (hv : semValid st) : headVars (pushStep n idx st) = headVars st := by
  unfold pushStep
  split
  · unfold headVars
    simp only
    have hne : updateNth st.scopes idx
        (fun sc => { sc with children := sc.children ++ [st.scopes.length] }) ≠ [] := by
      intro hcon
      have := updateNth_length st.scopes idx
        (fun sc => { sc with children := sc.children ++ [st.scopes.length] })
      rw [hcon] at this
      unfold semValid at hv
      simp at this
      omega
    rw [List.head?_append_of_ne_nil _ hne]
    exact updateNth_head?_vars _ _ _ (fun a => rfl)
  · rfl

theorem pushStep_hasKeyAt (n : ParseTreeNode) (idx : Nat) (st : SemState)
    (j : Nat) (name : String) (h : hasKeyAt st j name) :
    hasKeyAt (pushStep n idx st) j name := by
  rcases h with ⟨sc, hget, hkey⟩
  unfold pushStep
  split
  · unfold hasKeyAt
    simp only
    have hj : j < st.scopes.length := by
      by_contra hcon
      rw [List.get?_eq_none.2 (by omega)] at hget
      cases hget
    rw [List.get?_append (by rw [updateNth_length]; exact hj), updateNth_get?]
    by_cases hji : j = idx
    · subst hji
      rw [if_pos rfl, hget]
      exact ⟨_, rfl, by simpa [hasVarKey] using hkey⟩
    · rw [if_neg hji]
      exact ⟨sc, hget, hkey⟩
  · exact ⟨sc, hget, hkey⟩

mutual

/-- Invariants of `analyzeNode`: the scope list only grows, validity of the
current index is preserved, a nonzero current index stays nonzero, the global
scope's variables are untouched when neither the written index nor the current
index is 0, recorded keys persist, and entering a FOR/IF node forces the
current index away from the global scope. -/
theorem analyzeNode_master : ∀ (n : ParseTreeNode) (idx : Nat) (st : SemState),
    st.scopes.length ≤ (analyzeNode n idx st).scopes.length ∧
    (semValid st → semValid (analyzeNode n idx st)) ∧
    (semValid st → st.current ≠ 0 → (analyzeNode n idx st).current ≠ 0) ∧
    (semValid st → st.current ≠ 0 → idx ≠ 0 →
      headVars (analyzeNode n idx st) = headVars st) ∧
    (∀ j name, hasKeyAt st j name → hasKeyAt (analyzeNode n idx st) j name) ∧
    ((n.ty = "FOR_STATEMENT" ∨ n.ty = "IF_STATEMENT") → semValid st →
      (analyzeNode n idx st).current ≠ 0)
  | .mk i t v li co cs, idx, st => by
    rw [analyzeNode]
    have hd1 := declStep_scopes_length (.mk i t v li co cs) idx st
    have hd2 := declStep_current (.mk i t v li co cs) idx st
    have hc := analyzeChildren_master cs
      (pushStep (.mk i t v li co cs) idx (declStep (.mk i t v li co cs) idx st))
    refine ⟨?_, ?_, ?_, ?_, ?_, ?_⟩
    · calc st.scopes.length
          = (declStep (.mk i t v li co cs) idx st).scopes.length := hd1.symm
        _ ≤ (pushStep (.mk i t v li co cs) idx
              (declStep (.mk i t v li co cs) idx st)).scopes.length :=
            pushStep_scopes_length _ _ _
        _ ≤ _ := hc.1
    · intro hv
      exact hc.2.1 (pushStep_valid _ _ _ (declStep_valid _ _ _ hv))
    · intro hv hcur
      refine hc.2.2.1 (pushStep_valid _ _ _ (declStep_valid _ _ _ hv)) ?_
      exact pushStep_current_ne _ _ _ (declStep_valid _ _ _ hv) (by rw [hd2]; exact hcur)
    · intro hv hcur hidx
      rw [hc.2.2.2.1
          (pushStep_valid _ _ _ (declStep_valid _ _ _ hv))
          (pushStep_current_ne _ _ _ (declStep_valid _ _ _ hv) (by rw [hd2]; exact hcur)),
        pushStep_headVars _ _ _ (declStep_valid _ _ _ hv),
        declStep_headVars _ _ _ hidx]
    · intro j name hk
      exact hc.2.2.2.2 j name (pushStep_hasKeyAt _ _ _ _ _ (declStep_hasKeyAt _ _ _ _ _ hk))
    · intro hty hv
      refine hc.2.2.1 (pushStep_valid _ _ _ (declStep_valid _ _ _ hv)) ?_
      exact pushStep_forIf_current _ _ _ hty (declStep_valid _ _ _ hv)

theorem analyzeChildren_master : ∀ (cs : List ParseTreeNode) (st : SemState),
    st.scopes.length ≤ (analyzeChildren cs st).scopes.length ∧
    (semValid st → semValid (analyzeChildren cs st)) ∧
    (semValid st → st.current ≠ 0 → (analyzeChildren cs st).current ≠ 0) ∧
    (semValid st → st.current ≠ 0 →
      headVars (analyzeChildren cs st) = headVars st) ∧
    (∀ j name, hasKeyAt st j name → hasKeyAt (analyzeChildren cs st) j name)
  | [], st => by
    rw [analyzeChildren]
    exact ⟨le_refl _, fun h => h, fun _ h => h, fun _ _ => rfl, fun _ _ h => h⟩
  | c :: cs, st => by
    rw [analyzeChildren]
    have hn := analyzeNode_master c st.current st
    have hcs := analyzeChildren_master cs (analyzeNode c st.current st)
    refine ⟨le_trans hn.1 hcs.1, ?_, ?_, ?_, ?_⟩
    · intro hv
      exact hcs.2.1 (hn.2.1 hv)
    · intro hv hcur
      exact hcs.2.2.1 (hn.2.1 hv) (hn.2.2.1 hv hcur)
    · intro hv hcur
      rw [hcs.2.2.2.1 (hn.2.1 hv) (hn.2.2.1 hv hcur), hn.2.2.2.1 hv hcur hcur]
    · intro j name hk
      exact hcs.2.2.2.2 j name (hn.2.2.2.2.1 j name hk)

end

/-- Running `declStep` on a declaration statement (KEYWORD of a declarable
type followed by an IDENTIFIER) records the identifier in the scope at the
given index. -/
theorem declStep_records (did kid iid ty name : String) (extra : List ParseTreeNode)
    (idx : Nat) (st : SemState)
    (hty : ty = "int" ∨ ty = "char" ∨ ty = "float" ∨ ty = "double")
    (hv : idx < st.scopes.length) :
    hasKeyAt (declStep (.mk did "STATEMENT" none none none
      (.mk kid "KEYWORD" (some ty) none none [] ::
       .mk iid "IDENTIFIER" (some name) none none [] :: extra)) idx st) idx name := by
  unfold declStep
  simp only [ParseTreeNode.ty, ParseTreeNode.children, ParseTreeNode.value,
    List.head?_cons, List.getElem?_cons_succ, List.getElem?_cons_zero]
  rw [if_pos (by simp)]
  rw [if_pos (by rcases hty with h | h | h | h <;> simp [h])]
  rw [if_pos (by simp)]
  obtain ⟨sc0, hsc0⟩ : ∃ sc0, st.scopes.get? idx = some sc0 := ⟨_, List.get?_eq_get hv⟩
  unfold hasKeyAt
  simp only [updateNth_get?, eq_self_iff_true, if_true, hsc0, Option.map_some']
  refine ⟨_, rfl, ?_⟩
  unfold hasVarKey
  simp only [Option.getD_some]
  exact mapSet_hasKey_self _ _ _

/-- C4, confirmed: entering a FOR_STATEMENT or IF_STATEMENT subtree pushes a
new child scope that becomes current and is never reverted, so a declaration
statement that is a later sibling of the subtree is recorded in a scope
created inside that subtree (some scope of nonzero index), not in its original
enclosing (global) scope — whose variable map stays empty. -/
theorem c4_scope_push_persists (fs : ParseTreeNode) (rid did kid iid ty name : String)
    (extra : List ParseTreeNode)
    (hfs : fs.ty = "FOR_STATEMENT" ∨ fs.ty = "IF_STATEMENT")
    (hty : ty = "int" ∨ ty = "char" ∨ ty = "float" ∨ ty = "double") :
    let decl : ParseTreeNode := .mk did "STATEMENT" none none none
      (.mk kid "KEYWORD" (some ty) none none [] ::
       .mk iid "IDENTIFIER" (some name) none none [] :: extra)
    let root : ParseTreeNode := .mk rid "PROGRAM" none none none [fs, decl]
    let scopes := (performSemanticAnalysis root).1
    (∃ j sc, j ≠ 0 ∧ scopes.get? j = some sc ∧ hasVarKey sc name = true) ∧
    (∀ g, scopes.get? 0 = some g → g.vars = []) := by
  intro decl root scopes
  have hst0 : semValid (⟨[globalScope], 0⟩ : SemState) := by
    unfold semValid
    simp
  -- The PROGRAM root neither declares nor pushes; it just walks its children.
  have hroot : analyzeNode root 0 ⟨[globalScope], 0⟩ =
      analyzeNode decl (analyzeNode fs 0 ⟨[globalScope], 0⟩).current
        (analyzeNode fs 0 ⟨[globalScope], 0⟩) := by
    show analyzeNode (.mk rid "PROGRAM" none none none [fs, decl]) 0 _ = _
    rw [analyzeNode]
    rw [declStep_nop _ _ _ (by simp [ParseTreeNode.ty])]
    rw [pushStep_nop _ _ _ (by simp [ParseTreeNode.ty]) (by simp [ParseTreeNode.ty])]
    rw [analyzeChildren, analyzeChildren, analyzeChildren]
  -- Facts about the state after the FOR/IF subtree.
  have hmfs := analyzeNode_master fs 0 ⟨[globalScope], 0⟩
  have hv1 : semValid (analyzeNode fs 0 ⟨[globalScope], 0⟩) := hmfs.2.1 hst0
  have hcur1 : (analyzeNode fs 0 ⟨[globalScope], 0⟩).current ≠ 0 :=
    hmfs.2.2.2.2.2 hfs hst0
  have hhd1 : headVars (analyzeNode fs 0 ⟨[globalScope], 0⟩) = some [] := by
    rcases fs with ⟨fi, ft, fv, fl, fco, fcs⟩
    rw [analyzeNode]
    rw [declStep_nop _ _ _ (by
      simp only [ParseTreeNode.ty] at hfs ⊢
      rcases hfs with h | h <;> simp [h])]
    have hpv : semValid (pushStep (ParseTreeNode.mk fi ft fv fl fco fcs) 0
        ⟨[globalScope], 0⟩) := pushStep_valid _ _ _ hst0
    have hpc : (pushStep (ParseTreeNode.mk fi ft fv fl fco fcs) 0
        ⟨[globalScope], 0⟩).current ≠ 0 := pushStep_forIf_current _ _ _ hfs hst0
    rw [(analyzeChildren_master fcs _).2.2.2.1 hpv hpc,
      pushStep_headVars _ _ _ hst0]
    rfl
  set st1 := analyzeNode fs 0 (⟨[globalScope], 0⟩ : SemState) with hst1def
  -- Facts about the state after the declaration statement.
  have hdeq : analyzeNode decl st1.current st1 =
      analyzeChildren decl.children
        (pushStep decl st1.current (declStep decl st1.current st1)) := by
    rw [analyzeNode]
    rfl
  have hpnop : pushStep decl st1.current (declStep decl st1.current st1) =
      declStep decl st1.current st1 :=
    pushStep_nop _ _ _ (by simp [ParseTreeNode.ty]) (by simp [ParseTreeNode.ty])
  have hdv : semValid (declStep decl st1.current st1) := declStep_valid _ _ _ hv1
  have hdc : (declStep decl st1.current st1).current ≠ 0 := by
    rw [declStep_current]
    exact hcur1
  have hkeyD : hasKeyAt (declStep decl st1.current st1) st1.current name :=
    declStep_records did kid iid ty name extra st1.current st1 hty hv1
  have hkey3 : hasKeyAt (analyzeNode decl st1.current st1) st1.current name := by
    rw [hdeq, hpnop]
    exact (analyzeChildren_master decl.children _).2.2.2.2 _ _ hkeyD
  have hhd3 : headVars (analyzeNode decl st1.current st1) = some [] := by
    rw [hdeq, hpnop]
    rw [(analyzeChildren_master decl.children _).2.2.2.1 hdv hdc]
    rw [declStep_headVars _ _ _ hcur1]
    exact hhd1
  -- Assemble the two conclusions.
  have hscopes : scopes = (analyzeNode decl st1.current st1).scopes := by
    show (performSemanticAnalysis root).1 = _
    unfold performSemanticAnalysis
    rw [hroot]
  constructor
  · rcases hkey3 with ⟨sc, hget, hkey⟩
    exact ⟨st1.current, sc, hcur1, by rw [hscopes]; exact hget, hkey⟩
  · intro g hg
    unfold headVars at hhd3
    rw [hscopes] at hg
    cases hsc : (analyzeNode decl st1.current st1).scopes with
    | nil => rw [hsc] at hg; cases hg
    | cons a r =>
      rw [hsc] at hg hhd3
      simp only [List.head?] at hhd3
      have : a.vars = [] := by
        simpa using hhd3
      simp only [List.get?] at hg
      cases hg
      exact this

/-- C4, witness: the theorem applied to a concrete FOR subtree followed by the
declaration `int y`. -/
theorem c4_witness :
    (∃ j sc, j ≠ 0 ∧
       (performSemanticAnalysis (.mk "r" "PROGRAM" none none none
         [forSubtreeEx, declStmtEx])).1.get? j = some sc ∧
       hasVarKey sc "y" = true) ∧
    (∀ g, (performSemanticAnalysis (.mk "r" "PROGRAM" none none none
         [forSubtreeEx, declStmtEx])).1.get? 0 = some g → g.vars = []) :=
  c4_scope_push_persists forSubtreeEx "r" "n7" "n8" "n9" "int" "y" []
    (Or.inl rfl) (Or.inl rfl)

end Compiler
